import Mathlib

/-!
Verification development for the sshtun repository: a shallow embedding of
the tunnel lifecycle engine (sshtun.go), the TUN driver error logic
(tun/tun.go), the configuration (de)serialization, and the helpers they use,
together with theorems settling the specified properties.

Conventions of the embedding:
* Go machine integers (int, int64) are modelled as Lean Int (with explicit
  range hypotheses where 64-bit bounds matter); unsigned loop counters as Nat.
* Fallible Go functions return Except or Option; a Go "error" value is the
  inductive GoErr below.  Go sentinel errors (package-level vars compared
  with errors.Is by identity) are nullary constructors, so structural
  equality coincides with Go pointer identity on them.
* Stateful syscalls (seteuid, ioctl, SSH sessions) are modelled by threading
  the relevant state (the effective uid) explicitly and by environments of
  step outcomes for the external world (SSH sessions, pipes, the kernel).
-/

namespace Sshtun

/-! ### Basic character helpers -/

/-- Decimal digit to its ASCII character, as byte(digit) + the zero digit in Go. -/
def digitChar (d : Nat) : Char := Char.ofNat (48 + d)

/-- ASCII decimal digit test, Go: c >= 48 and c <= 57. -/
def isDigitChar (c : Char) : Bool := 48 ≤ c.toNat && c.toNat ≤ 57

/-! ### Error model (sshtun.go var block, lines 32-38; tun/tun.go line 14)

Go sentinel errors are package-level singletons; errors.Is walks the wrap
chain comparing by identity.  fmt.Errorf with a single %w produces a
one-level wrap (constructor wrapped), fmt.Errorf("%w: %w", a, b) wraps both
(constructor wrap2). Underlying errors from the OS or libraries are "base". -/

inductive GoErr where
  | errNilPointer : GoErr
  | errEmptySshAuthSock : GoErr
  | errNoTunReadWriter : GoErr
  | errUnrecoverable : GoErr
  | errMissingContext : GoErr
  | errInvalidAddress : GoErr
  | parseErr (typ text : String) : GoErr
  | base (name : String) : GoErr
  | wrapped (msg : String) (inner : GoErr) : GoErr
  | wrap2 (outer inner : GoErr) : GoErr
deriving DecidableEq

/-- errors.Is: identity at each level of the unwrap chain.  Faithful for the
targets used by the code (nullary sentinel constructors, which are singleton
values in Go, so structural equality agrees with pointer identity). -/
def errorsIs (e target : GoErr) : Bool :=
  (e == target) ||
  (match e with
   | .wrapped _ inner => errorsIs inner target
   | .wrap2 outer inner => errorsIs outer target || errorsIs inner target
   | _ => false)

/-- sshtun.go line 301: func unrecoverable(err) = fmt.Errorf("%w: %w", ErrUnrecoverable, err). -/
def unrecoverable (e : GoErr) : GoErr := .wrap2 .errUnrecoverable e

/-! ### Tunnel configuration record (sshtun.go lines 64-86)

The JSON-visible fields of SSHTUN.  Go int fields are Int here; the Duration
field KeepaliveInterval is its underlying int64 nanosecond count. -/

structure SSHTUN where
  Name : String
  Comment : String
  Protocol : String
  LocalNetwork : String
  LocalTunDevice : String
  LocalMTU : Int
  Remote : String
  RemoteNetwork : String
  RemoteTunDevice : String
  RemoteMTU : Int
  RemoteUser : String
  UseSSHAgent : Bool
  PrivateKeyFiles : List String
  RemoteUploadDirectory : String
  RemoteSCP : String
  Enable : Bool
  KeepaliveInterval : Int
  KeepaliveMaxErrorCount : Int
deriving DecidableEq

/-- The all-zero SSHTUN value, as produced by Go before json.Unmarshal fills
fields in (strings empty, ints 0, bools false, slices nil). -/
def zeroSSHTUN : SSHTUN :=
  ⟨"", "", "", "", "", 0, "", "", "", 0, "", false, [], "", "", false, 0, 0⟩

/-! ### Keepalive failure counting (sshtun.go StartKeepalive, lines 695-718)

One loop iteration that received a tick: on a failed serverAliveCheck the
counter n increments and, when n reaches countMax, the client is closed and
the loop exits; on success n resets to 0.  Returns (new n, closedAndExited). -/

def keepaliveStep (countMax n : Nat) (tickFailed : Bool) : Nat × Bool :=
  if tickFailed then
    let n2 := n + 1
    if countMax ≤ n2 then (n2, true) else (n2, false)
  else (0, false)

/-- Runs StartKeepalive over a finite list of tick outcomes (true = the
keepalive request failed) starting from counter n.  Result: (the 1-based
tick at which the client was closed, if any; the final counter). -/
def keepaliveRun (countMax : Nat) : Nat → List Bool → Option Nat × Nat
  | n, [] => (none, n)
  | n, t :: ts =>
    let s := keepaliveStep countMax n t
    if s.2 then (some 1, s.1)
    else
      match keepaliveRun countMax s.1 ts with
      | (some k, nf) => (some (k + 1), nf)
      | (none, nf) => (none, nf)

/-! ### Supervisor worker loop (sshtun.go OpenAll, lines 231-249)

Each enabled tunnel gets a goroutine looping: call Open; on error, stop if
the chain contains ErrUnrecoverable; then wait on a 5-second timer, exiting
if the context is canceled before the timer fires, else loop.  A round is
one iteration: the outcome of Open plus whether the context was canceled
before the 5-second retry timer fired. -/

structure WorkerRound where
  openResult : Option GoErr
  ctxCanceledDuringWait : Bool
deriving DecidableEq

inductive WorkerOutcome where
  | stoppedUnrecoverable (opens : Nat) : WorkerOutcome
  | stoppedCanceled (opens : Nat) : WorkerOutcome
  | stillRunning (opens : Nat) : WorkerOutcome
deriving DecidableEq

/-- Count one more completed Open call in an outcome. -/
def workerBump : WorkerOutcome → WorkerOutcome
  | .stoppedUnrecoverable k => .stoppedUnrecoverable (k + 1)
  | .stoppedCanceled k => .stoppedCanceled (k + 1)
  | .stillRunning k => .stillRunning (k + 1)

/-- The worker goroutine over a finite prefix of rounds; opens counts the
calls to Open that were made. -/
def workerRun : List WorkerRound → WorkerOutcome
  | [] => .stillRunning 0
  | r :: rs =>
    let unrec := match r.openResult with
      | some e => errorsIs e .errUnrecoverable
      | none => false
    if unrec then .stoppedUnrecoverable 1
    else if r.ctxCanceledDuringWait then .stoppedCanceled 1
    else workerBump (workerRun rs)

/-! ### OpenAll zero-enabled rejection (sshtun.go OpenAll, lines 218-259) -/

/-- numberOfTunnels accumulated by the OpenAll loop: one per enabled tunnel. -/
def numberOfEnabledTunnels (ts : List SSHTUN) : Nat :=
  ts.foldl (fun n t => if t.Enable then n + 1 else n) 0

/-- The early-return of OpenAll: when no tunnel was enabled it returns
fmt.Errorf("0 out of %d tunnel(s) marked enabled in configuration", len(t.Tunnels)).
Result: some errorMessage, or none when workers were spawned. -/
def openAllResult (ts : List SSHTUN) : Option String :=
  if numberOfEnabledTunnels ts = 0 then
    some ("0 out of " ++ toString ts.length ++ " tunnel(s) marked enabled in configuration")
  else none

/-! ### Shell quoting (github.com/alessio/shellescape Quote, used at sshtun.go 443-446)

Quote(s): empty string becomes a pair of single quotes; a string containing
any character outside the class word-char or @ % + = : , . slash dash is
wrapped in single quotes with every embedded single quote replaced by the
five-character sequence quote, double-quote, quote, double-quote, quote;
otherwise s is returned unchanged. -/

def sqChar : Char := Char.ofNat 39

def dqChar : Char := Char.ofNat 34

/-- Characters NOT matched by the shellescape regexp pattern, i.e. the safe
set: ASCII word chars plus @ % + = : , . slash dash. -/
def isShellSafeChar (c : Char) : Bool :=
  c.isAlphanum || c == Char.ofNat 95 || c == '@' || c == '%' || c == '+' ||
  c == '=' || c == ':' || c == ',' || c == '.' || c == '/' || c == '-'

def shellescapeQuote (s : String) : String :=
  if s.length = 0 then String.mk [sqChar, sqChar]
  else if s.toList.any (fun c => !(isShellSafeChar c)) then
    String.mk
      ([sqChar] ++
        s.toList.foldr
          (fun c acc =>
            (if c = sqChar then [sqChar, dqChar, sqChar, dqChar, sqChar] else [c]) ++ acc)
          [] ++
        [sqChar])
  else s

/-! ### Go strings.TrimSpace (ASCII whitespace; the repository only feeds it
ASCII command output) -/

def isSpaceChar (c : Char) : Bool :=
  c == ' ' || c.toNat == 9 || c.toNat == 10 || c.toNat == 11 ||
  c.toNat == 12 || c.toNat == 13

def goTrimSpace (s : String) : String :=
  String.mk (((s.toList.dropWhile isSpaceChar).reverse.dropWhile isSpaceChar).reverse)

/-! ### StartTunneling (sshtun.go lines 435-501)

The outcomes of the SSH session operations StartTunneling performs, in
program order.  stderrOutput is what draining the stderr pipe yielded. -/

structure SessionEnv where
  newSessionErr : Option GoErr
  stdinPipeErr : Option GoErr
  stdoutPipeErr : Option GoErr
  stderrPipeErr : Option GoErr
  startErr : Option GoErr
  waitErr : Option GoErr
  stderrOutput : String
deriving DecidableEq

/-- trwERR closure (lines 489-496): the drained stderr, trimmed, or the
fixed fallback when the buffer was empty. -/
def trwERR (stderrOutput : String) : String :=
  if stderrOutput.length > 0 then goTrimSpace stderrOutput
  else "no output on stderr"

structure TunnelingResult where
  err : Option GoErr
  startedCommand : Option String
deriving DecidableEq

/-- SSHTUN.StartTunneling: fails with ErrNoTunReadWriter when the remote
helper path was never recorded; otherwise builds the remote command line
with shellescape.Quote on every field, opens a session, obtains the three
stdio pipes, starts the remote command and waits for it.  startedCommand
records the string handed to session.Start, when execution got that far.
Note the verbatim translation of the stdin pipe branch (line 457): its
failure returns nil, not the error. -/
def startTunnelingRun (remoteTunReadWriter dev net : String) (remoteMTU : Int)
    (env : SessionEnv) : TunnelingResult :=
  if remoteTunReadWriter = "" then ⟨some .errNoTunReadWriter, none⟩
  else
    let mtustring := toString remoteMTU
    let cmd := "sudo " ++ shellescapeQuote remoteTunReadWriter ++
      " -delete -dev " ++ shellescapeQuote dev ++
      " -net " ++ shellescapeQuote net ++
      " -mtu " ++ shellescapeQuote mtustring
    match env.newSessionErr with
    | some e => ⟨some e, none⟩
    | none =>
      match env.stdinPipeErr with
      | some _ => ⟨none, none⟩
      | none =>
        match env.stdoutPipeErr with
        | some e => ⟨some e, none⟩
        | none =>
          match env.stderrPipeErr with
          | some e => ⟨some e, none⟩
          | none =>
            match env.startErr with
            | some e => ⟨some e, some cmd⟩
            | none =>
              match env.waitErr with
              | some e => ⟨some (.wrapped (trwERR env.stderrOutput) e), some cmd⟩
              | none => ⟨none, some cmd⟩

/-! ### Privilege gate (sshtun.go Become/Unbecome, lines 639-687)

The process effective uid is threaded explicitly; seteuid outcomes come
from the environment (a Bool per call site: does the syscall fail?). -/

structure Became where
  originalUID : Nat
  becameUID : Nat
deriving DecidableEq

/-- SSHTUN.Become(uid): records the current effective uid as originalUID;
only when it differs from uid does it call seteuid(uid) (which may fail);
becameUID is the effective uid afterwards.  Returns the guard and the new
effective uid. -/
def becomeOp (euid uid : Nat) (seteuidFails : Bool) : Except GoErr (Became × Nat) :=
  if euid ≠ uid then
    if seteuidFails then
      .error (.wrapped "unable to change to uid 0 (perhaps missing setuid mode on executable? chown 0:0 sshtun; chmod 4755 sshtun)" (.base "seteuid"))
    else .ok (⟨euid, uid⟩, uid)
  else .ok (⟨euid, euid⟩, euid)

/-- Became.Unbecome(): restores originalUID via seteuid only when the
current effective uid differs from it; updates becameUID. -/
def unbecomeOp (euid : Nat) (b : Became) (seteuidFails : Bool) : Except GoErr (Became × Nat) :=
  if euid ≠ b.originalUID then
    if seteuidFails then .error (.base "seteuid")
    else .ok ({ b with becameUID := b.originalUID }, b.originalUID)
  else .ok ({ b with becameUID := euid }, euid)

/-- Became.Become(uid) (re-escalation, lines 676-683): delegates to
SSHTUN.Become and copies only becameUID into the existing guard, so the
guard keeps its first originalUID. -/
def reBecomeOp (euid : Nat) (b : Became) (uid : Nat) (seteuidFails : Bool) :
    Except GoErr (Became × Nat) :=
  match becomeOp euid uid seteuidFails with
  | .error e => .error e
  | .ok (c, e2) => .ok ({ b with becameUID := c.becameUID }, e2)

/-! ### Helper upload (sshtun.go UploadHelperToRemote, lines 503-573) -/

structure UploadEnv where
  newSessionErr : Option GoErr
  stdoutPipeErr : Option GoErr
  stderrPipeErr : Option GoErr
  timestamp : String
  rand : Nat
  runErr : Option GoErr
  stdinErr : Option GoErr
  stdout : String
  stderr : String
deriving DecidableEq

/-- combinedOut closure (lines 543-559): join captured stdout and stderr,
fall back to a fixed message, and trim the result. -/
def combinedOut (rout rerr : String) : String :=
  goTrimSpace
    (if rout.length > 0 ∧ rerr.length > 0 then rout ++ " " ++ rerr
     else if rout.length > 0 then rout
     else if rerr.length > 0 then rerr
     else "no output from command")

/-- Go path filepath.Join for the two-element calls made here.  The inputs
in this code base are a nonempty directory with no trailing slash and a
slash-free file name, on which Join is concatenation with one separator
(the Clean pass Join performs is the identity on such inputs). -/
def filepathJoin (dir name : String) : String :=
  if dir = "" then name else dir ++ "/" ++ name

structure UploadOutcome where
  scpCommand : String
  remotePath : String
deriving DecidableEq

/-- SSHTUN.UploadHelperToRemote(client, remoteDirectory): an empty
remoteDirectory defaults to /tmp; the random name is
tunreadwriter-<timestamp>-<decimal of crand.Int63()>; the remote command is
RemoteSCP ++ " -t " ++ directory; on success the recorded remote path is
Join(directory, name).  env.rand stands for crand.Int63(), a value below
2^63; env.timestamp for time.Now().UTC().Format("20060102T150405"). -/
def uploadHelperToRemote (remoteSCP remoteDirectory : String) (env : UploadEnv) :
    Except GoErr UploadOutcome :=
  match env.newSessionErr with
  | some e => .error e
  | none =>
    let dir := if remoteDirectory = "" then "/tmp" else remoteDirectory
    let randomFilename := "tunreadwriter-" ++ env.timestamp ++ "-" ++ toString env.rand
    match env.stdoutPipeErr with
    | some e => .error e
    | none =>
      match env.stderrPipeErr with
      | some e => .error e
      | none =>
        match env.runErr with
        | some e => .error (.wrapped (combinedOut env.stdout env.stderr) e)
        | none =>
          match env.stdinErr with
          | some e => .error (.wrapped (combinedOut env.stdout env.stderr) e)
          | none =>
            .ok ⟨remoteSCP ++ " -t " ++ dir, filepathJoin dir randomFilename⟩

/-! ### Open: the tunnel lifecycle composition (sshtun.go Open, lines 319-433) -/

def ROOT : Nat := 0

structure OpenEnv where
  hasContext : Bool
  seteuidRoot1Fails : Bool
  createTUNErr : Option GoErr
  configureErr : Option GoErr
  seteuidBack1Fails : Bool
  dialErr : Option GoErr
  upload : UploadEnv
  seteuidRoot2Fails : Bool
  linkUpErr : Option GoErr
  seteuidBack2Fails : Bool
  tunneling : SessionEnv
  ctxCanceled : Bool
deriving DecidableEq

structure OpenResult where
  err : Option GoErr
  euid : Nat
  remoteHelper : Option String
  startedCommand : Option String
deriving DecidableEq

/-- SSHTUN.Open step by step, threading the process effective uid:
missing context; Become(ROOT); tun.CreateTUN; ConfigureInterface;
Unbecome; Dial; UploadHelperToRemote(client, "") - note the literal empty
directory argument at line 386; Became.Become(ROOT); LinkUp; Unbecome;
StartKeepalive (spawned, no effect on this state); StartTunneling, whose
error is wrapped unless the context was already canceled.  Failures of the
privilege, device and local-configuration steps are wrapped with the
unrecoverable sentinel; Dial and upload errors are returned as they are. -/
def openRun (cfg : SSHTUN) (env : OpenEnv) (euid0 : Nat) : OpenResult :=
  if ¬ env.hasContext then ⟨some .errMissingContext, euid0, none, none⟩
  else
    match becomeOp euid0 ROOT env.seteuidRoot1Fails with
    | .error e => ⟨some (unrecoverable e), euid0, none, none⟩
    | .ok (b, euid1) =>
      match env.createTUNErr with
      | some e => ⟨some (unrecoverable e), euid1, none, none⟩
      | none =>
        match env.configureErr with
        | some e => ⟨some (unrecoverable e), euid1, none, none⟩
        | none =>
          match unbecomeOp euid1 b env.seteuidBack1Fails with
          | .error e => ⟨some (unrecoverable e), euid1, none, none⟩
          | .ok (b1, euid2) =>
            match env.dialErr with
            | some e => ⟨some e, euid2, none, none⟩
            | none =>
              match uploadHelperToRemote cfg.RemoteSCP "" env.upload with
              | .error e => ⟨some e, euid2, none, none⟩
              | .ok up =>
                match reBecomeOp euid2 b1 ROOT env.seteuidRoot2Fails with
                | .error e => ⟨some (unrecoverable e), euid2, some up.remotePath, none⟩
                | .ok (b2, euid3) =>
                  match env.linkUpErr with
                  | some e => ⟨some (unrecoverable e), euid3, some up.remotePath, none⟩
                  | none =>
                    match unbecomeOp euid3 b2 env.seteuidBack2Fails with
                    | .error e => ⟨some (unrecoverable e), euid3, some up.remotePath, none⟩
                    | .ok (_, euid4) =>
                      let tr := startTunnelingRun up.remotePath cfg.RemoteTunDevice
                        cfg.RemoteNetwork cfg.RemoteMTU env.tunneling
                      match tr.err with
                      | some e =>
                        if ¬ env.ctxCanceled then
                          ⟨some (.wrapped "sshtun.StartTunneling" e), euid4,
                            some up.remotePath, tr.startedCommand⟩
                        else ⟨none, euid4, some up.remotePath, tr.startedCommand⟩
                      | none => ⟨none, euid4, some up.remotePath, tr.startedCommand⟩

/-! ### net.ParseCIDR and IP.To4 (Go net package, as used by
TUN.ConfigureInterface in tun/tun.go lines 116-124)

dtoi/xtoi are Go net's bounded decimal/hex readers (bound 0xFFFFFF);
parseIPv4 accepts exactly four dot-separated decimal octets 0-255 without
leading zeros and yields the 16-byte IPv4-in-IPv6 representation that
net.IPv4 builds; parseIPv6 is the net package field loop (fuel-indexed: the
fuel strictly exceeds the character count, and every iteration consumes at
least one character, so the fuel never runs out on a real input). -/

def dtoiAux : List Char → Nat → Nat → Nat × Nat × Bool
  | [], n, i => if i = 0 then (0, 0, false) else (n, i, true)
  | c :: cs, n, i =>
    if isDigitChar c then
      let n2 := n * 10 + (c.toNat - 48)
      if 16777215 ≤ n2 then (16777215, i, false)
      else dtoiAux cs n2 (i + 1)
    else if i = 0 then (0, 0, false) else (n, i, true)

/-- Go net dtoi: (value, digits consumed, ok). -/
def dtoi (s : List Char) : Nat × Nat × Bool := dtoiAux s 0 0

def hexDigitVal (c : Char) : Option Nat :=
  if 48 ≤ c.toNat && c.toNat ≤ 57 then some (c.toNat - 48)
  else if 97 ≤ c.toNat && c.toNat ≤ 102 then some (c.toNat - 97 + 10)
  else if 65 ≤ c.toNat && c.toNat ≤ 70 then some (c.toNat - 65 + 10)
  else none

def xtoiAux : List Char → Nat → Nat → Nat × Nat × Bool
  | [], n, i => if i = 0 then (0, 0, false) else (n, i, true)
  | c :: cs, n, i =>
    match hexDigitVal c with
    | some v =>
      let n2 := n * 16 + v
      if 16777215 ≤ n2 then (0, i, false)
      else xtoiAux cs n2 (i + 1)
    | none => if i = 0 then (0, 0, false) else (n, i, true)

/-- Go net xtoi: (value, hex digits consumed, ok). -/
def xtoi (s : List Char) : Nat × Nat × Bool := xtoiAux s 0 0

/-- One decimal octet of a dotted quad: 0-255, no leading zeros. -/
def parseV4Field (s : List Char) : Option (Nat × List Char) :=
  let r := dtoi s
  if !r.2.2 || r.1 > 255 then none
  else if r.2.1 > 1 ∧ s.head? = some (Char.ofNat 48) then none
  else some (r.1, s.drop r.2.1)

/-- The 16-byte representation net.IPv4(a,b,c,d) builds. -/
def v4InV6 (a b c d : Nat) : List Nat :=
  [0, 0, 0, 0, 0, 0, 0, 0, 0, 0, 255, 255, a, b, c, d]

def parseIPv4 (s : List Char) : Option (List Nat) :=
  match parseV4Field s with
  | none => none
  | some (a, s1) =>
    match s1 with
    | '.' :: s1b =>
      match parseV4Field s1b with
      | none => none
      | some (b, s2) =>
        match s2 with
        | '.' :: s2b =>
          match parseV4Field s2b with
          | none => none
          | some (c, s3) =>
            match s3 with
            | '.' :: s3b =>
              match parseV4Field s3b with
              | none => none
              | some (d, s4) => if s4 = [] then some (v4InV6 a b c d) else none
            | _ => none
        | _ => none
    | _ => none

/-- The checks Go performs after the parseIPv6 field loop ends (remaining
input must be empty; a short address needs an ellipsis to expand; a full
address must not also have an ellipsis). -/
def v6Finish (s : List Char) (ip : List Nat) (ellipsis : Option Nat) : Option (List Nat) :=
  if s ≠ [] then none
  else if ip.length < 16 then
    match ellipsis with
    | none => none
    | some e => some (ip.take e ++ List.replicate (16 - ip.length) 0 ++ ip.drop e)
  else
    match ellipsis with
    | some _ => none
    | none => some ip

def v6Loop : Nat → List Char → List Nat → Option Nat → Option (List Nat)
  | 0, _, _, _ => none
  | fuel + 1, s, ip, ellipsis =>
    if 16 ≤ ip.length then v6Finish s ip ellipsis
    else
      let r := xtoi s
      if !r.2.2 || r.1 > 65535 then none
      else if r.2.1 < s.length ∧ s.get? r.2.1 = some (Char.ofNat 46) then
        (if ellipsis = none ∧ ip.length ≠ 12 then none
         else if ip.length + 4 > 16 then none
         else
           match parseIPv4 s with
           | none => none
           | some ip4 => v6Finish [] (ip ++ ip4.drop 12) ellipsis)
      else
        let ip2 := ip ++ [r.1 / 256, r.1 % 256]
        let s2 := s.drop r.2.1
        if s2 = [] then v6Finish [] ip2 ellipsis
        else if s2.head? ≠ some ':' ∨ s2.length = 1 then none
        else
          let s3 := s2.drop 1
          if s3.head? = some ':' then
            (if ellipsis ≠ none then none
             else
               let s4 := s3.drop 1
               if s4 = [] then v6Finish [] ip2 (some ip2.length)
               else v6Loop fuel s4 ip2 (some ip2.length))
          else v6Loop fuel s3 ip2 ellipsis

def parseIPv6 (s : List Char) : Option (List Nat) :=
  if s.length ≥ 2 ∧ s.take 2 = [':', ':'] then
    let s2 := s.drop 2
    if s2 = [] then some (List.replicate 16 0)
    else v6Loop (s2.length + 1) s2 [] (some 0)
  else v6Loop (s.length + 1) s [] none

/-- Split at the first slash, as Go byteIndex(s, slash) plus slicing. -/
def splitAtSlash : List Char → Option (List Char × List Char)
  | [] => none
  | c :: cs =>
    if c = '/' then some ([], cs)
    else
      match splitAtSlash cs with
      | none => none
      | some (a, b) => some (c :: a, b)

/-- net.ParseCIDR: on success (ip bytes as Go returns them, prefix bits,
iplen in bytes); on failure the one ParseError Go builds, with Type "CIDR
address" and Text the whole input. -/
def parseCIDR (s : String) : Except GoErr (List Nat × Nat × Nat) :=
  match splitAtSlash s.toList with
  | none => .error (.parseErr "CIDR address" s)
  | some (addr, mask) =>
    let ipAndLen : Option (List Nat) × Nat :=
      match parseIPv4 addr with
      | some ip => (some ip, 4)
      | none => (parseIPv6 addr, 16)
    let r := dtoi mask
    match ipAndLen.1 with
    | none => .error (.parseErr "CIDR address" s)
    | some ipb =>
      if !r.2.2 ∨ r.2.1 ≠ mask.length ∨ r.1 > 8 * ipAndLen.2 then
        .error (.parseErr "CIDR address" s)
      else .ok (ipb, r.1, ipAndLen.2)

/-- net.IP.To4: a 4-byte address as is; a 16-byte address only when it has
the IPv4-in-IPv6 prefix (ten zero bytes then two 0xff bytes). -/
def to4 (ip : List Nat) : Option (List Nat) :=
  if ip.length = 4 then some ip
  else if ip.length = 16 ∧ ip.take 12 = [0, 0, 0, 0, 0, 0, 0, 0, 0, 0, 255, 255] then
    some (ip.drop 12)
  else none

/-- TUN.ConfigureInterface (tun/tun.go lines 116-157), error behaviour:
a ParseCIDR failure is returned verbatim; a parsed address that To4 cannot
reduce to 4 bytes yields ErrInvalidAddress; afterwards the socket and the
two ioctl requests may fail (their errors wrapped with the request name). -/
def configureInterface (ipv4AddressWithCidr : String)
    (socketErr ioctlAddrErr ioctlMaskErr : Option GoErr) : Option GoErr :=
  match parseCIDR ipv4AddressWithCidr with
  | .error e => some e
  | .ok (ip, _, _) =>
    match to4 ip with
    | none => some .errInvalidAddress
    | some _ =>
      match socketErr with
      | some e => some e
      | none =>
        match ioctlAddrErr with
        | some e => some (.wrapped "ioctl SIOCSIFADDR" e)
        | none =>
          match ioctlMaskErr with
          | some e => some (.wrapped "ioctl SIOCSIFNETMASK" e)
          | none => none

/-! ### time.Duration.String (Go time package, used by Duration.MarshalJSON
at sshtun.go line 90)

The Go code fills a 32-byte buffer right to left; the model builds the same
character list left of an accumulator.  fmtInt's 32-step fuel mirrors that
buffer and covers every uint64. -/

def fmtIntAux : Nat → Nat → List Char → List Char
  | 0, _, acc => acc
  | fuel + 1, v, acc =>
    if v = 0 then acc else fmtIntAux fuel (v / 10) (digitChar (v % 10) :: acc)

/-- Go time fmtInt: the decimal digits of v, at least one. -/
def fmtInt (v : Nat) : List Char := if v = 0 then ['0'] else fmtIntAux 32 v []

/-- Go time fmtFrac: prec fractional digits of v, least significant first,
omitting trailing zeros, preceded by a period when anything was printed;
also divides v by 10^prec.  The print flag records whether a nonzero digit
has been seen yet. -/
def fmtFracAux : Nat → Nat → List Char → Bool → List Char × Nat
  | v, 0, acc, print => (if print then '.' :: acc else acc, v)
  | v, prec + 1, acc, print =>
    let digit := v % 10
    let print2 := print || digit != 0
    let acc2 := if print2 then digitChar digit :: acc else acc
    fmtFracAux (v / 10) prec acc2 print2

def fmtFrac (v prec : Nat) : List Char × Nat := fmtFracAux v prec [] false

/-- The micro sign U+00B5 Go prints for microseconds. -/
def muChar : Char := Char.ofNat 181

/-- The characters Duration.format fills the buffer with for the magnitude
u (everything except the sign): below one second it uses ns, micro or ms
with a fraction; otherwise seconds with up to nine fractional digits, then
minutes and hours as they become nonzero. -/
def durationBodyChars (u : Nat) : List Char :=
  if u < 1000000000 then
    if u = 0 then ['0', 's']
    else
      let pu : Nat × List Char :=
        if u < 1000 then (0, ['n', 's'])
        else if u < 1000000 then (3, [muChar, 's'])
        else (6, ['m', 's'])
      let fr := fmtFrac u pu.1
      fmtInt fr.2 ++ fr.1 ++ pu.2
  else
    let fr := fmtFrac u 9
    let v := fr.2
    let secsPart := fmtInt (v % 60) ++ fr.1 ++ ['s']
    let v2 := v / 60
    if v2 > 0 then
      let minsPart := fmtInt (v2 % 60) ++ ['m']
      let v3 := v2 / 60
      (if v3 > 0 then fmtInt v3 ++ ['h'] else []) ++ minsPart ++ secsPart
    else secsPart

/-- Go time.Duration.String on an int64 nanosecond count: the magnitude
body prefixed with a minus sign for negative durations. -/
def durationString (d : Int) : String :=
  String.mk (if d < 0 then '-' :: durationBodyChars d.natAbs
    else durationBodyChars d.natAbs)

/-! ### time.ParseDuration (used by Duration.UnmarshalJSON, sshtun.go 94-113)

Faithful to the Go loop; numbers are uint64 values with Go's explicit
overflow checks against 2^63.  The only deviation: Go computes the
fractional contribution as uint64(float64(f) * (float64(unit) / scale))
with scale a float64 power of ten; the model uses the exact (f * unit) /
scale, which agrees with the float computation whenever unit / scale is an
integral power of ten (true for every string Duration.String produces,
since the printed fraction never has more digits than the unit's decimal
exponent). -/

def leadingIntAux : List Char → Nat → Option (Nat × List Char)
  | [], x => some (x, [])
  | c :: cs, x =>
    if isDigitChar c then
      if x > 922337203685477580 then none
      else
        let x2 := x * 10 + (c.toNat - 48)
        if x2 > 9223372036854775808 then none
        else leadingIntAux cs x2
    else some (x, c :: cs)

/-- Go time leadingInt: leading decimal value and the rest; none on overflow. -/
def leadingInt (s : List Char) : Option (Nat × List Char) := leadingIntAux s 0

/-- Go time leadingFraction: (digits value, scale, rest); once the value
would overflow it keeps consuming digits without updating value or scale. -/
def leadingFractionAux : List Char → Nat → Nat → Bool → Nat × Nat × List Char
  | [], x, scale, _ => (x, scale, [])
  | c :: cs, x, scale, overflow =>
    if isDigitChar c then
      if overflow then leadingFractionAux cs x scale true
      else if x > 922337203685477580 then leadingFractionAux cs x scale true
      else
        let y := x * 10 + (c.toNat - 48)
        if y > 9223372036854775808 then leadingFractionAux cs x scale true
        else leadingFractionAux cs y (scale * 10) false
    else (x, scale, c :: cs)

def leadingFraction (s : List Char) : Nat × Nat × List Char :=
  leadingFractionAux s 0 1 false

/-- Go time unitMap: nanoseconds per unit token (us has three spellings:
ASCII, micro sign U+00B5, Greek mu U+03BC). -/
def unitMapLookup (u : List Char) : Option Nat :=
  if u = ['n', 's'] then some 1
  else if u = ['u', 's'] then some 1000
  else if u = [muChar, 's'] then some 1000
  else if u = [Char.ofNat 956, 's'] then some 1000
  else if u = ['m', 's'] then some 1000000
  else if u = ['s'] then some 1000000000
  else if u = ['m'] then some 60000000000
  else if u = ['h'] then some 3600000000000
  else none

/-- One iteration of the ParseDuration loop: reads int part, optional
fraction, unit token; accumulates into d with the overflow checks of the
source; returns the new accumulator and the remaining input. -/
def durToken (s : List Char) (d : Nat) : Option (Nat × List Char) :=
  let c0ok := match s.head? with
    | some c0 => c0 == '.' || isDigitChar c0
    | none => false
  if !c0ok then none
  else
    match leadingInt s with
    | none => none
    | some (v, s2) =>
      let pre := decide (s2.length ≠ s.length)
      let hasDot := s2.head? == some '.'
      let s2b := if hasDot then s2.drop 1 else s2
      let lf := if hasDot then leadingFraction s2b else (0, 1, s2b)
      let f := lf.1
      let scale := lf.2.1
      let s3 := lf.2.2
      let post := hasDot && decide (s3.length ≠ s2b.length)
      if !pre && !post then none
      else
        let unitChars := s3.takeWhile (fun c => !(c == '.' || isDigitChar c))
        if unitChars = [] then none
        else
          match unitMapLookup unitChars with
          | none => none
          | some unit =>
            if v > 9223372036854775808 / unit then none
            else
              let v2 := v * unit
              let v3 := if f > 0 then v2 + (f * unit) / scale else v2
              if f > 0 ∧ v3 > 9223372036854775808 then none
              else
                let d2 := d + v3
                if d2 > 9223372036854775808 then none
                else some (d2, s3.drop unitChars.length)

/-- The ParseDuration token loop; every iteration consumes at least the
unit token, so fuel exceeding the input length never runs out. -/
def durLoop : Nat → List Char → Nat → Option Nat
  | 0, _, _ => none
  | fuel + 1, s, d =>
    if s = [] then some d
    else
      match durToken s d with
      | none => none
      | some (d2, s2) => durLoop fuel s2 d2

/-- Go time.ParseDuration: optional sign, the literal zero, then the token
loop; a non-negative result above 2^63 - 1 is an overflow error, while a
negated 2^63 is allowed. -/
def parseDuration (str : String) : Option Int :=
  let s0 := str.toList
  let sign : Bool × List Char :=
    match s0 with
    | c :: rest =>
      if c == '-' then (true, rest)
      else if c == '+' then (false, rest)
      else (false, s0)
    | [] => (false, s0)
  let neg := sign.1
  let s1 := sign.2
  if s1 = ['0'] then some 0
  else if s1 = [] then none
  else
    match durLoop (s1.length + 1) s1 0 with
    | none => none
    | some d =>
      if neg then some (-(d : Int))
      else if d > 9223372036854775807 then none
      else some (d : Int)

/-! ### JSON layer (encoding/json on the Tunnels / SSHTUN structs,
sshtun.go LoadConfig lines 144-162 and Tunnels.SaveConfig lines 200-216)

JSON values carry integers as Int: encoding/json decodes numbers aimed at
interface-typed targets as float64, which is exact on the integer literals
this configuration uses (all far below 2^53).  Field keys are matched
exactly; Go also accepts case-insensitive matches, but the encoder always
emits the exact tag, so round trips never exercise that. -/

inductive JValue where
  | null : JValue
  | bool (b : Bool) : JValue
  | num (n : Int) : JValue
  | str (s : String) : JValue
  | arr (xs : List JValue) : JValue
  | obj (fields : List (String × JValue)) : JValue

/-- Duration.MarshalJSON: the quoted time.Duration.String text. -/
def marshalDuration (d : Int) : JValue := .str (durationString d)

/-- Duration.UnmarshalJSON: a JSON number is taken as nanoseconds; a JSON
string goes through time.ParseDuration; anything else is the invalid
duration error. -/
def unmarshalDuration (j : JValue) : Option Int :=
  match j with
  | .num n => some n
  | .str s => parseDuration s
  | _ => none

/-- encoding/json semantics of decoding a JSON value into a string field:
null leaves the previous value. -/
def setStr (j : JValue) (old : String) : Option String :=
  match j with
  | .str s => some s
  | .null => some old
  | _ => none

def setInt (j : JValue) (old : Int) : Option Int :=
  match j with
  | .num n => some n
  | .null => some old
  | _ => none

def setBool (j : JValue) (old : Bool) : Option Bool :=
  match j with
  | .bool b => some b
  | .null => some old
  | _ => none

/-- Decoding into a []string: an array of strings, or null resetting the
slice to nil. -/
def setStrList (j : JValue) (_old : List String) : Option (List String) :=
  match j with
  | .arr xs =>
    xs.mapM (fun x =>
      match x with
      | .str s => some s
      | _ => none)
  | .null => some []
  | _ => none

/-- json.Marshal of one SSHTUN, fields in struct order with their tags;
comment carries omitempty; the unexported fields are skipped.  A nil
PrivateKeyFiles slice would encode as null; the model identifies nil and
empty slices. -/
def marshalSSHTUN (t : SSHTUN) : JValue :=
  .obj
    ([("name", .str t.Name)] ++
     (if t.Comment = "" then [] else [("comment", .str t.Comment)]) ++
     [("protocol", .str t.Protocol),
      ("local_network", .str t.LocalNetwork),
      ("local_tun_device", .str t.LocalTunDevice),
      ("local_mtu", .num t.LocalMTU),
      ("remote", .str t.Remote),
      ("remote_network", .str t.RemoteNetwork),
      ("remote_tun_device", .str t.RemoteTunDevice),
      ("remote_mtu", .num t.RemoteMTU),
      ("remote_user", .str t.RemoteUser),
      ("use_ssh_agent", .bool t.UseSSHAgent),
      ("private_key_files", .arr (t.PrivateKeyFiles.map JValue.str)),
      ("remote_upload_directory", .str t.RemoteUploadDirectory),
      ("remote_scp", .str t.RemoteSCP),
      ("enable", .bool t.Enable),
      ("keepalive_interval", marshalDuration t.KeepaliveInterval),
      ("keepalive_max_error_count", .num t.KeepaliveMaxErrorCount)])

/-- Apply one decoded JSON object member to the struct being filled;
unknown keys are ignored. -/
def applyField (t : SSHTUN) (kv : String × JValue) : Option SSHTUN :=
  let key := kv.1
  let j := kv.2
  if key = "name" then (setStr j t.Name).map fun v => { t with Name := v }
  else if key = "comment" then (setStr j t.Comment).map fun v => { t with Comment := v }
  else if key = "protocol" then (setStr j t.Protocol).map fun v => { t with Protocol := v }
  else if key = "local_network" then (setStr j t.LocalNetwork).map fun v => { t with LocalNetwork := v }
  else if key = "local_tun_device" then (setStr j t.LocalTunDevice).map fun v => { t with LocalTunDevice := v }
  else if key = "local_mtu" then (setInt j t.LocalMTU).map fun v => { t with LocalMTU := v }
  else if key = "remote" then (setStr j t.Remote).map fun v => { t with Remote := v }
  else if key = "remote_network" then (setStr j t.RemoteNetwork).map fun v => { t with RemoteNetwork := v }
  else if key = "remote_tun_device" then (setStr j t.RemoteTunDevice).map fun v => { t with RemoteTunDevice := v }
  else if key = "remote_mtu" then (setInt j t.RemoteMTU).map fun v => { t with RemoteMTU := v }
  else if key = "remote_user" then (setStr j t.RemoteUser).map fun v => { t with RemoteUser := v }
  else if key = "use_ssh_agent" then (setBool j t.UseSSHAgent).map fun v => { t with UseSSHAgent := v }
  else if key = "private_key_files" then (setStrList j t.PrivateKeyFiles).map fun v => { t with PrivateKeyFiles := v }
  else if key = "remote_upload_directory" then (setStr j t.RemoteUploadDirectory).map fun v => { t with RemoteUploadDirectory := v }
  else if key = "remote_scp" then (setStr j t.RemoteSCP).map fun v => { t with RemoteSCP := v }
  else if key = "enable" then (setBool j t.Enable).map fun v => { t with Enable := v }
  else if key = "keepalive_interval" then (unmarshalDuration j).map fun v => { t with KeepaliveInterval := v }
  else if key = "keepalive_max_error_count" then (setInt j t.KeepaliveMaxErrorCount).map fun v => { t with KeepaliveMaxErrorCount := v }
  else some t

/-- json.Unmarshal of one SSHTUN object: members applied in order over the
zero value. -/
def unmarshalSSHTUN (j : JValue) : Option SSHTUN :=
  match j with
  | .obj fields => fields.foldlM applyField zeroSSHTUN
  | .null => some zeroSSHTUN
  | _ => none

/-- json.Marshal of Tunnels: the one exported field, tag "tunnels". -/
def marshalTunnels (ts : List SSHTUN) : JValue :=
  .obj [("tunnels", .arr (ts.map marshalSSHTUN))]

/-- json.Unmarshal of Tunnels. -/
def unmarshalTunnels (j : JValue) : Option (List SSHTUN) :=
  match j with
  | .obj fields =>
    fields.foldlM
      (fun acc kv =>
        if kv.1 = "tunnels" then
          match kv.2 with
          | .arr xs => xs.mapM unmarshalSSHTUN
          | .null => some []
          | _ => none
        else some acc)
      []
  | _ => none

/-- LoadConfig after decoding (lines 154-159): an empty RemoteSCP defaults
to /usr/bin/scp (logger wiring carries no data). -/
def loadConfigModel (j : JValue) : Option (List SSHTUN) :=
  (unmarshalTunnels j).map
    (List.map fun t =>
      if t.RemoteSCP = "" then { t with RemoteSCP := "/usr/bin/scp" } else t)

/-- Tunnels.SaveConfig writes exactly the json encoding of the struct
(indentation does not change the value). -/
def saveConfigModel (ts : List SSHTUN) : JValue := marshalTunnels ts

/-! ### Proof-side characterization helpers (not from the source: used only
to state and prove properties of the definitions above) -/

/-- The prec least significant decimal digits of w, most significant first,
zero padded. -/
def padVals : Nat → Nat → List Nat
  | 0, _ => []
  | p + 1, w => padVals p (w / 10) ++ [w % 10]

/-- Reading digits most significant first. -/
def digitsFoldl (x : Nat) (ds : List Nat) : Nat :=
  ds.foldl (fun a d => a * 10 + d) x

/-- The continuation after a printed number must not begin with a digit for
leadingInt to stop there. -/
def headNonDigit (rest : List Char) : Prop :=
  match rest.head? with
  | none => True
  | some c => isDigitChar c = false

/-- The continuation after a unit token must begin with a digit or a period
(or end) for the unit tokenizer to stop there. -/
def headDigitOrDot (rest : List Char) : Prop :=
  match rest.head? with
  | none => True
  | some c => (c == '.' || isDigitChar c) = true

/-- The post-load RemoteSCP defaulting applied per tunnel by LoadConfig. -/
def scpDefault (t : SSHTUN) : SSHTUN :=
  if t.RemoteSCP = "" then { t with RemoteSCP := "/usr/bin/scp" } else t

/-- Fixture: an upload environment where every session operation succeeds,
with a fixed timestamp and random value. -/
def allOkUploadEnv : UploadEnv :=
  ⟨none, none, none, "20231012T225150", 42, none, none, "", ""⟩

/-- Fixture: a session environment where every operation succeeds. -/
def allOkSessionEnv : SessionEnv := ⟨none, none, none, none, none, none, ""⟩

/-- Fixture: an Open environment where every step succeeds. -/
def allOkOpenEnv : OpenEnv :=
  ⟨true, false, none, none, false, none, allOkUploadEnv, false, none, false,
    allOkSessionEnv, false⟩

/-! ## Theorems -/

/-! ### Error-chain helper lemmas -/

theorem errorsIs_unrecoverable (e : GoErr) :
    errorsIs (unrecoverable e) .errUnrecoverable = true := by
  simp [unrecoverable, errorsIs]

theorem errorsIs_wrapped_unrec (m : String) (e : GoErr) :
    errorsIs (.wrapped m e) .errUnrecoverable = errorsIs e .errUnrecoverable := by
  simp [errorsIs]

/-! ### Privilege-gate helper lemmas -/

theorem becomeOp_ok (euid uid : Nat) (f : Bool) (b : Became) (e2 : Nat)
    (h : becomeOp euid uid f = .ok (b, e2)) :
    b.originalUID = euid ∧ e2 = uid ∧ b.becameUID = e2 := by
  unfold becomeOp at h
  split at h
  · split at h
    · exact absurd h (by simp)
    · simp only [Except.ok.injEq, Prod.mk.injEq] at h
      obtain ⟨hb, he⟩ := h
      subst hb; subst he
      exact ⟨rfl, rfl, rfl⟩
  · simp only [Except.ok.injEq, Prod.mk.injEq] at h
    obtain ⟨hb, he⟩ := h
    subst hb; subst he
    simp_all

theorem unbecomeOp_ok (euid : Nat) (b : Became) (f : Bool) (b2 : Became) (e2 : Nat)
    (h : unbecomeOp euid b f = .ok (b2, e2)) :
    e2 = b.originalUID ∧ b2.originalUID = b.originalUID := by
  unfold unbecomeOp at h
  split at h
  · split at h
    · exact absurd h (by simp)
    · simp only [Except.ok.injEq, Prod.mk.injEq] at h
      obtain ⟨hb, he⟩ := h
      subst hb; subst he
      exact ⟨rfl, rfl⟩
  · simp only [Except.ok.injEq, Prod.mk.injEq] at h
    obtain ⟨hb, he⟩ := h
    subst hb; subst he
    simp_all

theorem reBecomeOp_ok (euid : Nat) (b : Became) (uid : Nat) (f : Bool) (b2 : Became) (e2 : Nat)
    (h : reBecomeOp euid b uid f = .ok (b2, e2)) :
    b2.originalUID = b.originalUID ∧ e2 = uid := by
  unfold reBecomeOp at h
  split at h
  · exact absurd h (by simp)
  case _ c e2x heq =>
    simp only [Except.ok.injEq, Prod.mk.injEq] at h
    obtain ⟨hb, he⟩ := h
    subst hb; subst he
    have := becomeOp_ok euid uid f c e2x heq
    exact ⟨rfl, this.2.1⟩

/-- C1: privilege bracket.  Become(uid) records the entry effective uid as
the original and is a no-op when it already equals uid; a successful
Unbecome always leaves the effective uid at the recorded original, so a
successful become/unbecome pair is the identity on the effective uid; and
every successful run of Open exits with the effective uid it entered with. -/
theorem C1_privilege_bracket :
    (∀ euid uid f b e2, becomeOp euid uid f = .ok (b, e2) →
        b.originalUID = euid ∧ e2 = uid ∧ (euid = uid → e2 = euid)) ∧
    (∀ euid b f b2 e2, unbecomeOp euid b f = .ok (b2, e2) → e2 = b.originalUID) ∧
    (∀ euid uid f g b e2 b2 e3, becomeOp euid uid f = .ok (b, e2) →
        unbecomeOp e2 b g = .ok (b2, e3) → e3 = euid) ∧
    (∀ cfg env euid0, (openRun cfg env euid0).err = none →
        (openRun cfg env euid0).euid = euid0) := by
  refine ⟨?_, ?_, ?_, ?_⟩
  · intro euid uid f b e2 h
    have := becomeOp_ok euid uid f b e2 h
    exact ⟨this.1, this.2.1, fun hq => hq ▸ this.2.1⟩
  · intro euid b f b2 e2 h
    exact (unbecomeOp_ok euid b f b2 e2 h).1
  · intro euid uid f g b e2 b2 e3 h1 h2
    have hb := becomeOp_ok euid uid f b e2 h1
    have hu := unbecomeOp_ok e2 b g b2 e3 h2
    rw [hu.1, hb.1]
  · intro cfg env euid0 h
    by_cases hc : env.hasContext
    · rcases h1 : becomeOp euid0 ROOT env.seteuidRoot1Fails with e | ⟨b, euid1⟩
      · simp [openRun, hc, h1] at h
      · rcases h2 : env.createTUNErr with _ | e
        swap
        · simp [openRun, hc, h1, h2] at h
        rcases h3 : env.configureErr with _ | e
        swap
        · simp [openRun, hc, h1, h2, h3] at h
        rcases h4 : unbecomeOp euid1 b env.seteuidBack1Fails with e | ⟨b1, euid2⟩
        · simp [openRun, hc, h1, h2, h3, h4] at h
        rcases h5 : env.dialErr with _ | e
        swap
        · simp [openRun, hc, h1, h2, h3, h4, h5] at h
        rcases h6 : uploadHelperToRemote cfg.RemoteSCP "" env.upload with e | up
        · simp [openRun, hc, h1, h2, h3, h4, h5, h6] at h
        rcases h7 : reBecomeOp euid2 b1 ROOT env.seteuidRoot2Fails with e | ⟨b2, euid3⟩
        · simp [openRun, hc, h1, h2, h3, h4, h5, h6, h7] at h
        rcases h8 : env.linkUpErr with _ | e
        swap
        · simp [openRun, hc, h1, h2, h3, h4, h5, h6, h7, h8] at h
        rcases h9 : unbecomeOp euid3 b2 env.seteuidBack2Fails with e | ⟨b3, euid4⟩
        · simp [openRun, hc, h1, h2, h3, h4, h5, h6, h7, h8, h9] at h
        have hbo := becomeOp_ok euid0 ROOT env.seteuidRoot1Fails b euid1 h1
        have hu1 := unbecomeOp_ok euid1 b env.seteuidBack1Fails b1 euid2 h4
        have hr := reBecomeOp_ok euid2 b1 ROOT env.seteuidRoot2Fails b2 euid3 h7
        have hu2 := unbecomeOp_ok euid3 b2 env.seteuidBack2Fails b3 euid4 h9
        have heuid4 : euid4 = euid0 := by
          rw [hu2.1, hr.1, hu1.2, hbo.1]
        rcases h10 : (startTunnelingRun up.remotePath cfg.RemoteTunDevice
            cfg.RemoteNetwork cfg.RemoteMTU env.tunneling).err with _ | e
        · simp [openRun, hc, h1, h2, h3, h4, h5, h6, h7, h8, h9, h10, heuid4]
        · by_cases hcc : env.ctxCanceled
          · simp [openRun, hc, h1, h2, h3, h4, h5, h6, h7, h8, h9, h10, hcc, heuid4]
          · simp [openRun, hc, h1, h2, h3, h4, h5, h6, h7, h8, h9, h10, hcc] at h
    · simp [openRun, hc] at h

/-- Witness for C1 at a concrete input: a fully successful Open run from
effective uid 1000 returns no error and exits at effective uid 1000. -/
theorem C1_privilege_bracket_witness :
    (openRun zeroSSHTUN allOkOpenEnv 1000).err = none ∧
    (openRun zeroSSHTUN allOkOpenEnv 1000).euid = 1000 :=
  ⟨by decide, C1_privilege_bracket.2.2.2 zeroSSHTUN allOkOpenEnv 1000 (by decide)⟩

/-- C3: supervisor restart policy.  A round whose Open result chains to the
unrecoverable sentinel stops the worker permanently (one Open call, no
retries regardless of later rounds); any other outcome - error or clean
return - retries Open after the 5-second timer (the next round runs) unless
the context is canceled while waiting, in which case the worker stops. -/
theorem C3_supervisor_restart_policy :
    (∀ (e : GoErr) (c : Bool) (rs : List WorkerRound),
        errorsIs e .errUnrecoverable = true →
        workerRun (⟨some e, c⟩ :: rs) = .stoppedUnrecoverable 1) ∧
    (∀ (r : WorkerRound) (rs : List WorkerRound),
        (∀ e, r.openResult = some e → errorsIs e .errUnrecoverable = false) →
        r.ctxCanceledDuringWait = false →
        workerRun (r :: rs) = workerBump (workerRun rs)) ∧
    (∀ (r : WorkerRound) (rs : List WorkerRound),
        (∀ e, r.openResult = some e → errorsIs e .errUnrecoverable = false) →
        r.ctxCanceledDuringWait = true →
        workerRun (r :: rs) = .stoppedCanceled 1) := by
  refine ⟨?_, ?_, ?_⟩
  · intro e c rs he
    simp [workerRun, he]
  · intro r rs hne hcw
    rcases hr : r.openResult with _ | e
    · simp [workerRun, hr, hcw]
    · simp [workerRun, hr, hcw, hne e hr]
  · intro r rs hne hcw
    rcases hr : r.openResult with _ | e
    · simp [workerRun, hr, hcw]
    · simp [workerRun, hr, hcw, hne e hr]

/-- Witness for C3 at concrete inputs: an unrecoverable first round stops
the worker after one Open call even with more rounds available; a plain
error retries into the following rounds; cancellation stops the worker. -/
theorem C3_supervisor_restart_policy_witness :
    workerRun (⟨some (unrecoverable (.base "dial")), false⟩ :: [⟨none, false⟩]) =
      .stoppedUnrecoverable 1 ∧
    workerRun (⟨some (.base "dial"), false⟩ :: [⟨none, true⟩]) =
      workerBump (workerRun [⟨none, true⟩]) ∧
    workerRun (⟨some (.base "dial"), true⟩ :: []) = .stoppedCanceled 1 :=
  ⟨C3_supervisor_restart_policy.1 (unrecoverable (.base "dial")) false [⟨none, false⟩]
      (by decide),
   C3_supervisor_restart_policy.2.1 ⟨some (.base "dial"), false⟩ [⟨none, true⟩]
      (by intro e he; cases he; decide) rfl,
   C3_supervisor_restart_policy.2.2 ⟨some (.base "dial"), true⟩ []
      (by intro e he; cases he; decide) rfl⟩

/-! ### Keepalive run helper lemmas -/

theorem keepaliveRun_all_fail_below (countMax : Nat) :
    ∀ (k n : Nat), n + k < countMax →
      keepaliveRun countMax n (List.replicate k true) = (none, n + k) := by
  intro k
  induction k with
  | zero => intro n _; simp [keepaliveRun]
  | succ k ih =>
    intro n h
    have hlt : ¬ countMax ≤ n + 1 := by omega
    have ih2 := ih (n + 1) (by omega)
    simp [List.replicate_succ, keepaliveRun, keepaliveStep, hlt, ih2]
    omega

theorem keepaliveRun_all_fail_close (countMax : Nat) :
    ∀ (k n : Nat), 1 ≤ k → n + k = countMax →
      (keepaliveRun countMax n (List.replicate k true)).1 = some k := by
  intro k
  induction k with
  | zero => omega
  | succ k ih =>
    intro n _ h
    by_cases hk : k = 0
    · subst hk
      have : countMax ≤ n + 1 := by omega
      simp [keepaliveRun, keepaliveStep, this]
    · have hlt : ¬ countMax ≤ n + 1 := by omega
      have ih2 := ih (n + 1) (by omega) (by omega)
      rcases hres : keepaliveRun countMax (n + 1) (List.replicate k true) with ⟨o, nf⟩
      rw [hres] at ih2
      simp at ih2
      subst ih2
      simp [List.replicate_succ, keepaliveRun, keepaliveStep, hlt, hres]

/-- C4: keepalive failure counting.  A successful tick resets the counter
to zero and never closes; a failed tick increments the counter and closes
the client exactly when the incremented counter has reached countMax (so
countMax consecutive failures from a reset counter close the client on the
countMax-th tick and no earlier, and with countMax = 0 the first failed
tick closes it whatever follows); after a success the loop continues as if
freshly started. -/
theorem C4_keepalive_failure_counting :
    (∀ countMax n, keepaliveStep countMax n false = (0, false)) ∧
    (∀ countMax n, (keepaliveStep countMax n true).1 = n + 1) ∧
    (∀ countMax n, (keepaliveStep countMax n true).2 = decide (countMax ≤ n + 1)) ∧
    (∀ countMax, 1 ≤ countMax →
        (keepaliveRun countMax 0 (List.replicate countMax true)).1 = some countMax) ∧
    (∀ countMax k, k < countMax →
        keepaliveRun countMax 0 (List.replicate k true) = (none, k)) ∧
    (∀ ts : List Bool, (keepaliveRun 0 0 (true :: ts)).1 = some 1) ∧
    (∀ countMax n (ts : List Bool),
        keepaliveRun countMax n (false :: ts) =
          match keepaliveRun countMax 0 ts with
          | (some k, nf) => (some (k + 1), nf)
          | (none, nf) => (none, nf)) := by
  refine ⟨?_, ?_, ?_, ?_, ?_, ?_, ?_⟩
  · intro countMax n; rfl
  · intro countMax n
    by_cases h : countMax ≤ n + 1 <;> simp [keepaliveStep, h]
  · intro countMax n
    by_cases h : countMax ≤ n + 1 <;> simp [keepaliveStep, h]
  · intro countMax h
    exact keepaliveRun_all_fail_close countMax countMax 0 h (by omega)
  · intro countMax k h
    have := keepaliveRun_all_fail_below countMax k 0 (by omega)
    simpa using this
  · intro ts
    simp [keepaliveRun, keepaliveStep]
  · intro countMax n ts
    simp [keepaliveRun, keepaliveStep]

/-- Witness for C4 at concrete inputs: with countMax = 3, three consecutive
failures close at tick 3, two do not close, and with countMax = 0 a first
failure closes at tick 1. -/
theorem C4_keepalive_failure_counting_witness :
    (keepaliveRun 3 0 (List.replicate 3 true)).1 = some 3 ∧
    keepaliveRun 3 0 (List.replicate 2 true) = (none, 2) ∧
    (keepaliveRun 0 0 (true :: [false])).1 = some 1 :=
  ⟨C4_keepalive_failure_counting.2.2.2.1 3 (by decide),
   C4_keepalive_failure_counting.2.2.2.2.1 3 2 (by decide),
   C4_keepalive_failure_counting.2.2.2.2.2.1 [false]⟩

/-! ### OpenAll zero-enabled helper -/

theorem foldl_enabled_const (ts : List SSHTUN) (h : ∀ t ∈ ts, t.Enable = false) :
    ∀ n, List.foldl (fun n t => if t.Enable then n + 1 else n) n ts = n := by
  induction ts with
  | nil => intro n; rfl
  | cons t ts ih =>
    intro n
    have ht : t.Enable = false := h t (by simp)
    have ih2 := ih (fun x hx => h x (List.mem_cons_of_mem _ hx)) n
    simp [List.foldl_cons, ht, ih2]

theorem numberOfEnabledTunnels_all_disabled (ts : List SSHTUN)
    (h : ∀ t ∈ ts, t.Enable = false) : numberOfEnabledTunnels ts = 0 :=
  foldl_enabled_const ts h 0

/-- C9: when no tunnel in the set is enabled, OpenAll returns the error
whose message is the literal zero, the total tunnel count, and the
enabled-in-configuration phrase. -/
theorem C9_zero_enabled_message (ts : List SSHTUN) (h : ∀ t ∈ ts, t.Enable = false) :
    openAllResult ts =
      some ("0 out of " ++ toString ts.length ++
        " tunnel(s) marked enabled in configuration") := by
  simp [openAllResult, numberOfEnabledTunnels_all_disabled ts h]

/-- Witness for C9: two disabled tunnels produce exactly the message the
spec quotes for that scenario. -/
theorem C9_zero_enabled_message_witness :
    openAllResult [zeroSSHTUN, { zeroSSHTUN with Name := "example2" }] =
      some "0 out of 2 tunnel(s) marked enabled in configuration" := by
  have h := C9_zero_enabled_message [zeroSSHTUN, { zeroSSHTUN with Name := "example2" }]
    (by decide)
  simpa using h

/-- C10: inside StartTunneling, a failure to obtain the session stdin pipe
makes the function return nil (success) and start nothing, while a failure
of the stdout or stderr pipe is returned to the caller as the error. -/
theorem C10_stdin_pipe_error_swallowed
    (helper dev net : String) (mtu : Int) (env : SessionEnv)
    (hh : helper ≠ "") (hs : env.newSessionErr = none) :
    (∀ e, env.stdinPipeErr = some e →
        startTunnelingRun helper dev net mtu env = ⟨none, none⟩) ∧
    (env.stdinPipeErr = none → ∀ e, env.stdoutPipeErr = some e →
        (startTunnelingRun helper dev net mtu env).err = some e) ∧
    (env.stdinPipeErr = none → env.stdoutPipeErr = none →
        ∀ e, env.stderrPipeErr = some e →
        (startTunnelingRun helper dev net mtu env).err = some e) := by
  refine ⟨?_, ?_, ?_⟩
  · intro e he
    simp [startTunnelingRun, hh, hs, he]
  · intro hin e hout
    simp [startTunnelingRun, hh, hs, hin, hout]
  · intro hin hout e herr
    simp [startTunnelingRun, hh, hs, hin, hout, herr]

/-- Witness for C10: concrete session environments in which the stdin pipe
fails (Start reports success) and in which the stdout pipe fails (Start
reports that error). -/
theorem C10_stdin_pipe_error_swallowed_witness :
    startTunnelingRun "/tmp/x" "tun0" "172.18.0.2/24" 0
      ⟨none, some (.base "stdin"), none, none, none, none, ""⟩ = ⟨none, none⟩ ∧
    (startTunnelingRun "/tmp/x" "tun0" "172.18.0.2/24" 0
      ⟨none, none, some (.base "stdout"), none, none, none, ""⟩).err =
        some (.base "stdout") :=
  ⟨(C10_stdin_pipe_error_swallowed "/tmp/x" "tun0" "172.18.0.2/24" 0
      ⟨none, some (.base "stdin"), none, none, none, none, ""⟩
      (by decide) rfl).1 (.base "stdin") rfl,
   (C10_stdin_pipe_error_swallowed "/tmp/x" "tun0" "172.18.0.2/24" 0
      ⟨none, none, some (.base "stdout"), none, none, none, ""⟩
      (by decide) rfl).2.1 rfl (.base "stdout") rfl⟩

/-- C2: unrecoverable-error classification in Open.  Before the byte pump
starts, a failure of Become(ROOT), tun.CreateTUN, ConfigureInterface,
either Unbecome, the re-escalating Become(ROOT) or LinkUp is returned with
the unrecoverable sentinel in its chain, whereas a failure of the SSH dial
or of any part of the helper upload is returned without the sentinel in its
chain (verbatim for dial and the upload session and pipe errors, wrapped
only with captured output for the upload run and stdin errors). -/
theorem C2_unrecoverable_classification
    (cfg : SSHTUN) (env : OpenEnv) (euid0 : Nat) (hc : env.hasContext = true) :
    (euid0 ≠ ROOT → env.seteuidRoot1Fails = true →
        ∃ e, (openRun cfg env euid0).err = some e ∧
          errorsIs e .errUnrecoverable = true) ∧
    (env.seteuidRoot1Fails = false → ∀ e0, env.createTUNErr = some e0 →
        (openRun cfg env euid0).err = some (unrecoverable e0) ∧
        errorsIs (unrecoverable e0) .errUnrecoverable = true) ∧
    (env.seteuidRoot1Fails = false → env.createTUNErr = none →
        ∀ e0, env.configureErr = some e0 →
        (openRun cfg env euid0).err = some (unrecoverable e0) ∧
        errorsIs (unrecoverable e0) .errUnrecoverable = true) ∧
    (env.seteuidRoot1Fails = false → env.createTUNErr = none →
        env.configureErr = none → euid0 ≠ ROOT → env.seteuidBack1Fails = true →
        ∃ e, (openRun cfg env euid0).err = some e ∧
          errorsIs e .errUnrecoverable = true) ∧
    (env.seteuidRoot1Fails = false → env.createTUNErr = none →
        env.configureErr = none → env.seteuidBack1Fails = false →
        ∀ e0, env.dialErr = some e0 → errorsIs e0 .errUnrecoverable = false →
        (openRun cfg env euid0).err = some e0 ∧
        errorsIs e0 .errUnrecoverable = false) ∧
    (env.seteuidRoot1Fails = false → env.createTUNErr = none →
        env.configureErr = none → env.seteuidBack1Fails = false →
        env.dialErr = none →
        ∀ e0, env.upload.newSessionErr = some e0 →
        errorsIs e0 .errUnrecoverable = false →
        (openRun cfg env euid0).err = some e0 ∧
        errorsIs e0 .errUnrecoverable = false) ∧
    (env.seteuidRoot1Fails = false → env.createTUNErr = none →
        env.configureErr = none → env.seteuidBack1Fails = false →
        env.dialErr = none → env.upload.newSessionErr = none →
        env.upload.stdoutPipeErr = none → env.upload.stderrPipeErr = none →
        ∀ e0, env.upload.runErr = some e0 →
        errorsIs e0 .errUnrecoverable = false →
        (openRun cfg env euid0).err =
          some (.wrapped (combinedOut env.upload.stdout env.upload.stderr) e0) ∧
        errorsIs (.wrapped (combinedOut env.upload.stdout env.upload.stderr) e0)
          .errUnrecoverable = false) ∧
    (env.seteuidRoot1Fails = false → env.createTUNErr = none →
        env.configureErr = none → env.seteuidBack1Fails = false →
        env.dialErr = none → env.upload.newSessionErr = none →
        env.upload.stdoutPipeErr = none → env.upload.stderrPipeErr = none →
        env.upload.runErr = none → env.upload.stdinErr = none →
        euid0 ≠ ROOT → env.seteuidRoot2Fails = true →
        ∃ e, (openRun cfg env euid0).err = some e ∧
          errorsIs e .errUnrecoverable = true) ∧
    (env.seteuidRoot1Fails = false → env.createTUNErr = none →
        env.configureErr = none → env.seteuidBack1Fails = false →
        env.dialErr = none → env.upload.newSessionErr = none →
        env.upload.stdoutPipeErr = none → env.upload.stderrPipeErr = none →
        env.upload.runErr = none → env.upload.stdinErr = none →
        env.seteuidRoot2Fails = false →
        ∀ e0, env.linkUpErr = some e0 →
        (openRun cfg env euid0).err = some (unrecoverable e0) ∧
        errorsIs (unrecoverable e0) .errUnrecoverable = true) ∧
    (env.seteuidRoot1Fails = false → env.createTUNErr = none →
        env.configureErr = none → env.seteuidBack1Fails = false →
        env.dialErr = none → env.upload.newSessionErr = none →
        env.upload.stdoutPipeErr = none → env.upload.stderrPipeErr = none →
        env.upload.runErr = none → env.upload.stdinErr = none →
        env.seteuidRoot2Fails = false → env.linkUpErr = none →
        euid0 ≠ ROOT → env.seteuidBack2Fails = true →
        ∃ e, (openRun cfg env euid0).err = some e ∧
          errorsIs e .errUnrecoverable = true) := by
  refine ⟨?_, ?_, ?_, ?_, ?_, ?_, ?_, ?_, ?_, ?_⟩
  · intro hne hf
    refine ⟨unrecoverable (.wrapped "unable to change to uid 0 (perhaps missing setuid mode on executable? chown 0:0 sshtun; chmod 4755 sshtun)" (.base "seteuid")), ?_, errorsIs_unrecoverable _⟩
    simp [openRun, hc, becomeOp, hne, hf]
  · intro hf e0 he0
    by_cases h0 : euid0 = ROOT
    · subst h0
      exact ⟨by simp [openRun, hc, becomeOp, he0], errorsIs_unrecoverable _⟩
    · exact ⟨by simp [openRun, hc, becomeOp, h0, hf, he0], errorsIs_unrecoverable _⟩
  · intro hf h2 e0 he0
    by_cases h0 : euid0 = ROOT
    · subst h0
      exact ⟨by simp [openRun, hc, becomeOp, h2, he0], errorsIs_unrecoverable _⟩
    · exact ⟨by simp [openRun, hc, becomeOp, h0, hf, h2, he0], errorsIs_unrecoverable _⟩
  · intro hf h2 h3 hne hub
    refine ⟨unrecoverable (.base "seteuid"), ?_, errorsIs_unrecoverable _⟩
    have hne2 : ROOT ≠ euid0 := fun hx => hne hx.symm
    simp [openRun, hc, becomeOp, hne, hf, h2, h3, unbecomeOp, hne2, hub]
  · intro hf h2 h3 h4 e0 he0 hch
    by_cases h0 : euid0 = ROOT
    · subst h0
      exact ⟨by simp [openRun, hc, becomeOp, h2, h3, unbecomeOp, he0], hch⟩
    · have hne2 : ROOT ≠ euid0 := fun hx => h0 hx.symm
      exact ⟨by simp [openRun, hc, becomeOp, h0, hf, h2, h3, unbecomeOp, hne2, h4, he0], hch⟩
  · intro hf h2 h3 h4 h5 e0 he0 hch
    by_cases h0 : euid0 = ROOT
    · subst h0
      exact ⟨by simp [openRun, hc, becomeOp, h2, h3, unbecomeOp, h5,
        uploadHelperToRemote, he0], hch⟩
    · have hne2 : ROOT ≠ euid0 := fun hx => h0 hx.symm
      exact ⟨by simp [openRun, hc, becomeOp, h0, hf, h2, h3, unbecomeOp, hne2, h4, h5,
        uploadHelperToRemote, he0], hch⟩
  · intro hf h2 h3 h4 h5 h6 h7 h8 e0 he0 hch
    constructor
    · by_cases h0 : euid0 = ROOT
      · subst h0
        simp [openRun, hc, becomeOp, h2, h3, unbecomeOp, h5,
          uploadHelperToRemote, h6, h7, h8, he0]
      · have hne2 : ROOT ≠ euid0 := fun hx => h0 hx.symm
        simp [openRun, hc, becomeOp, h0, hf, h2, h3, unbecomeOp, hne2, h4, h5,
          uploadHelperToRemote, h6, h7, h8, he0]
    · rw [errorsIs_wrapped_unrec]
      exact hch
  · intro hf h2 h3 h4 h5 h6 h7 h8 h9 h10 hne hr2
    refine ⟨unrecoverable (.wrapped "unable to change to uid 0 (perhaps missing setuid mode on executable? chown 0:0 sshtun; chmod 4755 sshtun)" (.base "seteuid")), ?_, errorsIs_unrecoverable _⟩
    have hne2 : ROOT ≠ euid0 := fun hx => hne hx.symm
    simp [openRun, hc, becomeOp, hne, hf, h2, h3, unbecomeOp, hne2, h4, h5,
      uploadHelperToRemote, h6, h7, h8, h9, h10, reBecomeOp, hr2]
  · intro hf h2 h3 h4 h5 h6 h7 h8 h9 h10 hr2 e0 he0
    by_cases h0 : euid0 = ROOT
    · subst h0
      exact ⟨by simp [openRun, hc, becomeOp, h2, h3, unbecomeOp, h5,
        uploadHelperToRemote, h6, h7, h8, h9, h10, reBecomeOp, he0],
        errorsIs_unrecoverable _⟩
    · have hne2 : ROOT ≠ euid0 := fun hx => h0 hx.symm
      exact ⟨by simp [openRun, hc, becomeOp, h0, hf, h2, h3, unbecomeOp, hne2, h4, h5,
        uploadHelperToRemote, h6, h7, h8, h9, h10, reBecomeOp, hr2, he0],
        errorsIs_unrecoverable _⟩
  · intro hf h2 h3 h4 h5 h6 h7 h8 h9 h10 hr2 hl hne hub2
    refine ⟨unrecoverable (.base "seteuid"), ?_, errorsIs_unrecoverable _⟩
    have hne2 : ROOT ≠ euid0 := fun hx => hne hx.symm
    simp [openRun, hc, becomeOp, hne, hf, h2, h3, unbecomeOp, hne2, h4, h5,
      uploadHelperToRemote, h6, h7, h8, h9, h10, reBecomeOp, hr2, hl, hub2]

/-- Witness for C2 at concrete inputs: a ConfigureInterface failure is
wrapped with the unrecoverable sentinel; a dial failure is returned
verbatim without the sentinel in its chain. -/
theorem C2_unrecoverable_classification_witness :
    (openRun zeroSSHTUN { allOkOpenEnv with configureErr := some (.base "ioctl") } 1000).err =
      some (unrecoverable (.base "ioctl")) ∧
    errorsIs (unrecoverable (.base "ioctl")) .errUnrecoverable = true ∧
    (openRun zeroSSHTUN { allOkOpenEnv with dialErr := some (.base "dial") } 1000).err =
      some (.base "dial") ∧
    errorsIs (.base "dial") .errUnrecoverable = false := by
  have h1 := (C2_unrecoverable_classification zeroSSHTUN
    { allOkOpenEnv with configureErr := some (.base "ioctl") } 1000 rfl).2.2.1
    rfl rfl (.base "ioctl") rfl
  have h2 := (C2_unrecoverable_classification zeroSSHTUN
    { allOkOpenEnv with dialErr := some (.base "dial") } 1000 rfl).2.2.2.2.1
    rfl rfl rfl rfl (.base "dial") rfl (by decide)
  exact ⟨h1.1, h1.2, h2.1, h2.2⟩

/-- Counterexample to C5 as stated: Open ignores the configured remote
upload directory.  With RemoteUploadDirectory set to /opt and every step
succeeding, the recorded remote helper path lies under /tmp, not under the
configured directory. -/
theorem C5_upload_directory_counterexample :
    (openRun { zeroSSHTUN with RemoteUploadDirectory := "/opt" } allOkOpenEnv
        1000).remoteHelper = some "/tmp/tunreadwriter-20231012T225150-42" ∧
    ("/tmp/tunreadwriter-20231012T225150-42" : String) ≠
      filepathJoin "/opt" "tunreadwriter-20231012T225150-42" := by
  exact ⟨by decide, by decide⟩

/-- C5 amended: Open always calls UploadHelperToRemote with the empty
directory string - regardless of the configured remote upload directory -
so the helper is uploaded into /tmp (the default for the empty string) and
on success the recorded remote helper path is the join of /tmp and the
generated name tunreadwriter-<timestamp>-<63-bit random>.  For
UploadHelperToRemote itself the directory parameter behaves as the claim
describes: empty means /tmp, and the recorded path joins that directory
with the generated name. -/
theorem C5_upload_path_amended (cfg : SSHTUN) (env : OpenEnv) (euid0 : Nat)
    (hc : env.hasContext = true) (hf : env.seteuidRoot1Fails = false)
    (h2 : env.createTUNErr = none) (h3 : env.configureErr = none)
    (h4 : env.seteuidBack1Fails = false) (h5 : env.dialErr = none)
    (h6 : env.upload.newSessionErr = none) (h7 : env.upload.stdoutPipeErr = none)
    (h8 : env.upload.stderrPipeErr = none) (h9 : env.upload.runErr = none)
    (h10 : env.upload.stdinErr = none) (_hrand : env.upload.rand < 9223372036854775808)
    (h11 : env.seteuidRoot2Fails = false) (h12 : env.linkUpErr = none)
    (h13 : env.seteuidBack2Fails = false) :
    (openRun cfg env euid0).remoteHelper =
      some (filepathJoin "/tmp"
        ("tunreadwriter-" ++ env.upload.timestamp ++ "-" ++ toString env.upload.rand)) ∧
    (∀ (scp dir : String) (uenv : UploadEnv),
        uenv.newSessionErr = none → uenv.stdoutPipeErr = none →
        uenv.stderrPipeErr = none → uenv.runErr = none → uenv.stdinErr = none →
        uploadHelperToRemote scp dir uenv =
          .ok ⟨scp ++ " -t " ++ (if dir = "" then "/tmp" else dir),
            filepathJoin (if dir = "" then "/tmp" else dir)
              ("tunreadwriter-" ++ uenv.timestamp ++ "-" ++ toString uenv.rand)⟩) := by
  constructor
  · by_cases h0 : euid0 = ROOT
    · subst h0
      simp [openRun, hc, becomeOp, h2, h3, unbecomeOp, h5, uploadHelperToRemote,
        h6, h7, h8, h9, h10, h11, h12, h13, reBecomeOp]
      split
      · split <;> rfl
      · rfl
    · have hne2 : ROOT ≠ euid0 := fun hx => h0 hx.symm
      simp [openRun, hc, becomeOp, h0, hf, h2, h3, unbecomeOp, hne2, h4, h5,
        uploadHelperToRemote, h6, h7, h8, h9, h10, h11, h12, h13, reBecomeOp]
      split
      · split <;> rfl
      · rfl
  · intro scp dir uenv u1 u2 u3 u4 u5
    simp [uploadHelperToRemote, u1, u2, u3, u4, u5]

/-- Witness for C5 amended at concrete inputs: a successful Open records
the /tmp path built from the fixture timestamp and random value, and
UploadHelperToRemote with an explicit directory uses that directory. -/
theorem C5_upload_path_amended_witness :
    (openRun zeroSSHTUN allOkOpenEnv 1000).remoteHelper =
      some (filepathJoin "/tmp" ("tunreadwriter-" ++ "20231012T225150" ++ "-" ++
        toString (42 : Nat))) ∧
    uploadHelperToRemote "/usr/bin/scp" "/opt" allOkUploadEnv =
      .ok ⟨"/usr/bin/scp" ++ " -t " ++ (if "/opt" = "" then "/tmp" else "/opt"),
        filepathJoin (if "/opt" = "" then "/tmp" else "/opt")
          ("tunreadwriter-" ++ "20231012T225150" ++ "-" ++ toString (42 : Nat))⟩ := by
  have h := C5_upload_path_amended zeroSSHTUN allOkOpenEnv 1000 rfl rfl rfl rfl rfl rfl
    rfl rfl rfl rfl rfl (by decide) rfl rfl rfl
  exact ⟨h.1, h.2 "/usr/bin/scp" "/opt" allOkUploadEnv rfl rfl rfl rfl rfl⟩

/-! ### parseCIDR error-shape helper -/

theorem parseCIDR_error_shape (s : String) (e : GoErr)
    (h : parseCIDR s = .error e) : e = .parseErr "CIDR address" s := by
  unfold parseCIDR at h
  rcases hsp : splitAtSlash s.toList with _ | ⟨addr, mask⟩
  · rw [hsp] at h
    simp at h
    exact h.symm
  · rw [hsp] at h
    simp only at h
    split at h
    · simp at h
      exact h.symm
    · split at h
      · simp at h
        exact h.symm
      · simp at h

/-- Counterexample to C6 as stated: the syntactically invalid CIDR
192.168.99.256/29 does not fail with the invalid-address sentinel - it
fails with the net.ParseCIDR parse error, whose chain does not contain the
sentinel. -/
theorem C6_invalid_cidr_counterexample :
    configureInterface "192.168.99.256/29" none none none =
      some (.parseErr "CIDR address" "192.168.99.256/29") ∧
    errorsIs (.parseErr "CIDR address" "192.168.99.256/29") .errInvalidAddress = false ∧
    GoErr.parseErr "CIDR address" "192.168.99.256/29" ≠ .errInvalidAddress := by
  exact ⟨by decide, by decide, by decide⟩

/-- C6 amended: ConfigureInterface rejects every input that does not denote
an IPv4 address with CIDR prefix, but with two distinct errors: an input
that net.ParseCIDR cannot parse (such as 192.168.99.256/29) is rejected
with the parse error returned verbatim, which is not the invalid-address
sentinel and does not chain to it, while a well-formed CIDR whose address
is not IPv4 fails with the invalid-address sentinel. -/
theorem C6_configure_interface_amended (addr : String)
    (sErr aErr mErr : Option GoErr) :
    (∀ e, parseCIDR addr = .error e →
        configureInterface addr sErr aErr mErr = some e ∧
        e = .parseErr "CIDR address" addr ∧
        errorsIs e .errInvalidAddress = false) ∧
    (∀ ip bits len, parseCIDR addr = .ok (ip, bits, len) → to4 ip = none →
        configureInterface addr sErr aErr mErr = some .errInvalidAddress) := by
  constructor
  · intro e h
    have hshape := parseCIDR_error_shape addr e h
    refine ⟨by simp [configureInterface, h], hshape, ?_⟩
    subst hshape
    simp [errorsIs]
  · intro ip bits len h hto4
    simp [configureInterface, h, hto4]

/-- Witness for C6 amended at concrete inputs: the claim's own example
192.168.99.256/29 takes the parse-error branch, and the well-formed
non-IPv4 CIDR ::1/128 takes the invalid-address branch. -/
theorem C6_configure_interface_amended_witness :
    (configureInterface "192.168.99.256/29" none none none =
        some (.parseErr "CIDR address" "192.168.99.256/29") ∧
      GoErr.parseErr "CIDR address" "192.168.99.256/29" =
        .parseErr "CIDR address" "192.168.99.256/29" ∧
      errorsIs (.parseErr "CIDR address" "192.168.99.256/29") .errInvalidAddress = false) ∧
    configureInterface "::1/128" none none none = some .errInvalidAddress := by
  refine ⟨(C6_configure_interface_amended "192.168.99.256/29" none none none).1
      (.parseErr "CIDR address" "192.168.99.256/29") (by rfl), ?_⟩
  exact (C6_configure_interface_amended "::1/128" none none none).2
    [0, 0, 0, 0, 0, 0, 0, 0, 0, 0, 0, 0, 0, 0, 0, 1] 128 16 (by rfl) (by rfl)

/-- Counterexample to C8 as stated: with safe field values the remote
command line contains no single quote at all - shellescape.Quote leaves
fields made only of safe characters bare - so the fields are not each
single-quoted. -/
theorem C8_single_quoting_counterexample :
    (startTunnelingRun "/tmp/x" "tun0" "10.0.0.1/24" 0 allOkSessionEnv).startedCommand =
      some "sudo /tmp/x -delete -dev tun0 -net 10.0.0.1/24 -mtu 0" ∧
    ("sudo /tmp/x -delete -dev tun0 -net 10.0.0.1/24 -mtu 0").toList.all
      (fun c => !(c == sqChar)) = true ∧
    ("sudo /tmp/x -delete -dev tun0 -net 10.0.0.1/24 -mtu 0" : String) ≠
      "sudo \x27/tmp/x\x27 -delete -dev \x27tun0\x27 -net \x2710.0.0.1/24\x27 -mtu \x270\x27" := by
  exact ⟨by decide, by decide, by decide⟩

/-- C8 amended: for every tunnel state with a non-empty remote helper path,
StartTunneling builds the remote command line as sudo, the helper path,
-delete, -dev, the device, -net, the network CIDR, -mtu, the MTU, with each
field passed through shellescape.Quote - which returns a pair of single
quotes for an empty field, wraps a field containing any character outside
the safe class in single quotes (escaping embedded single quotes), and
inserts a field made only of safe characters bare, without quotes. -/
theorem C8_remote_command_amended (helper dev net : String) (mtu : Int)
    (env : SessionEnv) (hh : helper ≠ "") (h1 : env.newSessionErr = none)
    (h2 : env.stdinPipeErr = none) (h3 : env.stdoutPipeErr = none)
    (h4 : env.stderrPipeErr = none) :
    (startTunnelingRun helper dev net mtu env).startedCommand =
      some ("sudo " ++ shellescapeQuote helper ++ " -delete -dev " ++
        shellescapeQuote dev ++ " -net " ++ shellescapeQuote net ++ " -mtu " ++
        shellescapeQuote (toString mtu)) ∧
    (∀ s : String, s ≠ "" → s.toList.all isShellSafeChar = true →
        shellescapeQuote s = s) ∧
    (∀ s : String, s.toList.all isShellSafeChar = false →
        shellescapeQuote s =
          String.mk ([sqChar] ++
            s.toList.foldr (fun c acc =>
              (if c = sqChar then [sqChar, dqChar, sqChar, dqChar, sqChar] else [c]) ++ acc)
              [] ++ [sqChar])) ∧
    shellescapeQuote "" = String.mk [sqChar, sqChar] := by
  refine ⟨?_, ?_, ?_, rfl⟩
  · simp only [startTunnelingRun, hh, h1, h2, h3, h4]
    rcases env.startErr with _ | e
    · rcases env.waitErr with _ | e <;> simp
    · simp
  · intro s hne hsafe
    have hlen : s.length ≠ 0 := by
      intro hx
      apply hne
      cases s with
      | mk data =>
        simp only [String.length] at hx
        have hd : data = [] := List.length_eq_zero.mp hx
        simp [hd]
    have hany : s.toList.any (fun c => !(isShellSafeChar c)) = false := by
      rw [List.any_eq_false]
      intro c hcmem
      have := List.all_eq_true.mp hsafe c hcmem
      simp [this]
    unfold shellescapeQuote
    rw [if_neg hlen, hany]
    simp
  · intro s hunsafe
    have hne : s.toList ≠ [] := by
      intro hx
      rw [hx] at hunsafe
      simp at hunsafe
    have hlen : s.length ≠ 0 := by
      intro hx
      apply hne
      cases s with
      | mk data =>
        simp only [String.length] at hx
        exact List.length_eq_zero.mp hx
    have hany : s.toList.any (fun c => !(isShellSafeChar c)) = true := by
      rcases List.all_eq_false.mp hunsafe with ⟨c, hcmem, hcp⟩
      refine List.any_eq_true.mpr ⟨c, hcmem, ?_⟩
      simp [hcp]
    unfold shellescapeQuote
    rw [if_neg hlen, hany]
    simp

/-- Witness for C8 amended at concrete inputs, including a helper path with
a space that does get single-quoted. -/
theorem C8_remote_command_amended_witness :
    (startTunnelingRun "/tmp/my helper" "tun0" "172.18.0.2/24" 1500
        allOkSessionEnv).startedCommand =
      some ("sudo " ++ shellescapeQuote "/tmp/my helper" ++ " -delete -dev " ++
        shellescapeQuote "tun0" ++ " -net " ++ shellescapeQuote "172.18.0.2/24" ++
        " -mtu " ++ shellescapeQuote (toString (1500 : Int))) :=
  (C8_remote_command_amended "/tmp/my helper" "tun0" "172.18.0.2/24" 1500
    allOkSessionEnv (by decide) rfl rfl rfl rfl).1

/-! ### Duration round-trip: digit and fmtInt lemmas -/

theorem digitChar_toNat (d : Nat) (h : d < 10) : (digitChar d).toNat = 48 + d := by
  interval_cases d <;> rfl

theorem isDigitChar_digitChar (d : Nat) (h : d < 10) : isDigitChar (digitChar d) = true := by
  interval_cases d <;> rfl

theorem digitChar_sub48 (d : Nat) (h : d < 10) : (digitChar d).toNat - 48 = d := by
  rw [digitChar_toNat d h]; omega

theorem botsplit (w p : Nat) : w % 10 ^ (p + 1) = 10 * (w / 10 % 10 ^ p) + w % 10 := by
  rw [pow_succ, mul_comm (10 ^ p) 10, Nat.mod_mul]
  omega

theorem botdiv (w p : Nat) : w % 10 ^ (p + 1) / 10 = w / 10 % 10 ^ p := by
  rw [botsplit]; omega

theorem botmod (w p : Nat) : w % 10 ^ (p + 1) % 10 = w % 10 := by
  rw [botsplit]; omega

theorem divdiv (v p : Nat) : v / 10 / 10 ^ p = v / 10 ^ (p + 1) := by
  rw [Nat.div_div_eq_div_mul]; ring_nf

theorem fmtIntAux_append (fuel : Nat) : ∀ (v : Nat) (acc : List Char),
    fmtIntAux fuel v acc = fmtIntAux fuel v [] ++ acc := by
  induction fuel with
  | zero => intro v acc; rfl
  | succ fuel ih =>
    intro v acc
    by_cases hv : v = 0
    · simp [fmtIntAux, hv]
    · simp only [fmtIntAux, if_neg hv]
      rw [ih (v / 10) (digitChar (v % 10) :: acc), ih (v / 10) [digitChar (v % 10)]]
      simp

theorem fmtIntAux_all_digits (fuel : Nat) : ∀ (v : Nat) (acc : List Char),
    (∀ c ∈ acc, isDigitChar c = true) →
    ∀ c ∈ fmtIntAux fuel v acc, isDigitChar c = true := by
  induction fuel with
  | zero => intro v acc hacc; exact hacc
  | succ fuel ih =>
    intro v acc hacc
    by_cases hv : v = 0
    · simpa [fmtIntAux, hv] using hacc
    · simp only [fmtIntAux, if_neg hv]
      apply ih
      intro c hc
      rcases List.mem_cons.mp hc with h | h
      · subst h; exact isDigitChar_digitChar _ (Nat.mod_lt _ (by norm_num))
      · exact hacc c h

theorem fmtIntAux_ne_nil (fuel : Nat) : ∀ (v : Nat) (acc : List Char), acc ≠ [] →
    fmtIntAux fuel v acc ≠ [] := by
  induction fuel with
  | zero => intro v acc hacc; exact hacc
  | succ fuel ih =>
    intro v acc hacc
    by_cases hv : v = 0
    · simpa [fmtIntAux, hv] using hacc
    · simp only [fmtIntAux, if_neg hv]
      exact ih (v / 10) (digitChar (v % 10) :: acc) (by simp)

theorem fmtInt_all_digits (v : Nat) : ∀ c ∈ fmtInt v, isDigitChar c = true := by
  by_cases hv : v = 0
  · intro c hc
    simp [fmtInt, hv] at hc
    subst hc
    rfl
  · simp only [fmtInt, if_neg hv]
    exact fmtIntAux_all_digits 32 v [] (by simp)

theorem fmtInt_ne_nil (v : Nat) : fmtInt v ≠ [] := by
  by_cases hv : v = 0
  · simp [fmtInt, hv]
  · simp only [fmtInt, if_neg hv]
    show fmtIntAux (31 + 1) v [] ≠ []
    simp only [fmtIntAux, if_neg hv]
    exact fmtIntAux_ne_nil 31 (v / 10) [digitChar (v % 10)] (by simp)

theorem fmtInt_head_digit (v : Nat) :
    ∃ c cs, fmtInt v = c :: cs ∧ isDigitChar c = true := by
  rcases hf : fmtInt v with _ | ⟨c, cs⟩
  · exact absurd hf (fmtInt_ne_nil v)
  · exact ⟨c, cs, rfl, fmtInt_all_digits v c (by rw [hf]; simp)⟩

theorem leadingIntAux_stop (rest : List Char) (x : Nat) (h : headNonDigit rest) :
    leadingIntAux rest x = some (x, rest) := by
  cases rest with
  | nil => rfl
  | cons c cs =>
    have hc : isDigitChar c = false := h
    simp [leadingIntAux, hc]

theorem leadingIntAux_fmtIntAux (fuel : Nat) : ∀ (v x : Nat) (rest : List Char),
    v < 10 ^ fuel →
    x * 10 ^ (fmtIntAux fuel v []).length + v ≤ 2 ^ 63 →
    leadingIntAux (fmtIntAux fuel v [] ++ rest) x =
      leadingIntAux rest (x * 10 ^ (fmtIntAux fuel v []).length + v) := by
  induction fuel with
  | zero =>
    intro v x rest hv _
    interval_cases v
    simp [fmtIntAux]
  | succ fuel ih =>
    intro v x rest hv hb
    by_cases hzero : v = 0
    · subst hzero; simp [fmtIntAux]
    · have hform : fmtIntAux (fuel + 1) v [] =
          fmtIntAux fuel (v / 10) [] ++ [digitChar (v % 10)] := by
        simp only [fmtIntAux, if_neg hzero]
        exact fmtIntAux_append fuel (v / 10) [digitChar (v % 10)]
      have hlen : (fmtIntAux (fuel + 1) v []).length =
          (fmtIntAux fuel (v / 10) []).length + 1 := by
        rw [hform]; simp
      have hv10 : v / 10 < 10 ^ fuel := by
        rw [pow_succ, mul_comm] at hv
        exact Nat.div_lt_of_lt_mul hv
      have hdm : v % 10 < 10 := Nat.mod_lt _ (by norm_num)
      have hdam : 10 * (v / 10) + v % 10 = v := Nat.div_add_mod v 10
      set L := (fmtIntAux fuel (v / 10) []).length with hL
      have hmid_mul : (x * 10 ^ L + v / 10) * 10 + v % 10 = x * 10 ^ (L + 1) + v := by
        calc (x * 10 ^ L + v / 10) * 10 + v % 10
            = x * (10 ^ L * 10) + (10 * (v / 10) + v % 10) := by ring
          _ = x * 10 ^ (L + 1) + v := by rw [pow_succ, hdam]
      have hkey : x * 10 ^ (L + 1) + v ≤ 2 ^ 63 := by rw [← hlen]; exact hb
      have hmidb : x * 10 ^ L + v / 10 ≤ 2 ^ 63 := by
        have h10 : (x * 10 ^ L + v / 10) * 10 + v % 10 ≤ 2 ^ 63 := by rw [hmid_mul]; exact hkey
        omega
      rw [hform, List.append_assoc]
      simp only [List.singleton_append, List.length_append, List.length_singleton]
      rw [ih (v / 10) x (digitChar (v % 10) :: rest) hv10 hmidb]
      have hx1 : ¬ (x * 10 ^ L + v / 10 > 922337203685477580) := by
        have hmul : (x * 10 ^ L + v / 10) * 10 ≤ 2 ^ 63 := by omega
        have := (Nat.le_div_iff_mul_le (by norm_num : (0:Nat) < 10)).mpr hmul
        norm_num at this
        omega
      simp only [List.singleton_append, leadingIntAux, isDigitChar_digitChar _ hdm,
        if_true, digitChar_sub48 _ hdm]
      rw [if_neg hx1]
      have hx2 : ¬ ((x * 10 ^ L + v / 10) * 10 + v % 10 > 9223372036854775808) := by
        rw [hmid_mul]
        have : (2:Nat) ^ 63 = 9223372036854775808 := by norm_num
        omega
      rw [if_neg hx2, hmid_mul, ← hL]

theorem leadingIntAux_fmtInt (v : Nat) (rest : List Char) (hv : v ≤ 2 ^ 63)
    (hrest : headNonDigit rest) :
    leadingIntAux (fmtInt v ++ rest) 0 = some (v, rest) := by
  by_cases hzero : v = 0
  · subst hzero
    show leadingIntAux ('0' :: rest) 0 = some (0, rest)
    simp only [leadingIntAux]
    norm_num
    exact leadingIntAux_stop rest 0 hrest
  · have hvf : v < 10 ^ 32 := lt_of_le_of_lt hv (by norm_num)
    have hb : 0 * 10 ^ (fmtIntAux 32 v []).length + v ≤ 2 ^ 63 := by simpa using hv
    have := leadingIntAux_fmtIntAux 32 v 0 rest hvf hb
    simp only [fmtInt, if_neg hzero]
    rw [this]
    simpa using leadingIntAux_stop rest v hrest


/-! ### Duration round-trip: fraction lemmas -/

theorem digitsFoldl_nil (x : Nat) : digitsFoldl x [] = x := rfl

theorem digitsFoldl_cons (x d : Nat) (ds : List Nat) :
    digitsFoldl x (d :: ds) = digitsFoldl (x * 10 + d) ds := rfl

theorem digitsFoldl_ge (ds : List Nat) : ∀ x, x ≤ digitsFoldl x ds := by
  induction ds with
  | nil => intro x; exact Nat.le_refl x
  | cons d ds ih =>
    intro x
    rw [digitsFoldl_cons]
    exact le_trans (by omega) (ih (x * 10 + d))

theorem digitsFoldl_append_single (x b : Nat) (ds : List Nat) :
    digitsFoldl x (ds ++ [b]) = digitsFoldl x ds * 10 + b := by
  unfold digitsFoldl
  rw [List.foldl_append]
  rfl

theorem leadingFractionAux_digits : ∀ (ds : List Nat) (rest : List Char) (x sc : Nat),
    (∀ d ∈ ds, d < 10) →
    digitsFoldl x ds ≤ 2 ^ 63 →
    headNonDigit rest →
    leadingFractionAux (ds.map digitChar ++ rest) x sc false =
      (digitsFoldl x ds, sc * 10 ^ ds.length, rest) := by
  intro ds
  induction ds with
  | nil =>
    intro rest x sc _ _ hrest
    cases rest with
    | nil => simp [leadingFractionAux, digitsFoldl]
    | cons c cs =>
      have hc : isDigitChar c = false := hrest
      simp [leadingFractionAux, hc, digitsFoldl]
  | cons d ds ih =>
    intro rest x sc hds hb hrest
    have hd10 : d < 10 := hds d (by simp)
    have hstep : digitsFoldl x (d :: ds) = digitsFoldl (x * 10 + d) ds := rfl
    rw [hstep] at hb
    have hge : x * 10 + d ≤ digitsFoldl (x * 10 + d) ds := digitsFoldl_ge ds _
    have hx1 : ¬ (x > 922337203685477580) := by
      have hmul : x * 10 ≤ 2 ^ 63 := by omega
      have := (Nat.le_div_iff_mul_le (by norm_num : (0:Nat) < 10)).mpr hmul
      norm_num at this
      omega
    have hy : ¬ (x * 10 + d > 9223372036854775808) := by
      have : (2:Nat) ^ 63 = 9223372036854775808 := by norm_num
      omega
    simp only [List.map_cons, List.cons_append, leadingFractionAux,
      isDigitChar_digitChar _ hd10, if_true, digitChar_sub48 _ hd10,
      Bool.false_eq_true, if_false, List.append_eq]
    rw [if_neg hx1, if_neg hy]
    rw [ih rest (x * 10 + d) (sc * 10) (fun e he => hds e (by simp [he])) hb hrest]
    rw [hstep]
    simp [List.length_cons, pow_succ]
    ring

theorem padVals_lt10 : ∀ (p w : Nat), ∀ d ∈ padVals p w, d < 10 := by
  intro p
  induction p with
  | zero => intro w d hd; simp [padVals] at hd
  | succ p ih =>
    intro w d hd
    simp only [padVals] at hd
    rcases List.mem_append.mp hd with h | h
    · exact ih (w / 10) d h
    · simp at h
      subst h
      exact Nat.mod_lt _ (by norm_num)

theorem padVals_length : ∀ (p w : Nat), (padVals p w).length = p := by
  intro p
  induction p with
  | zero => intro w; rfl
  | succ p ih => intro w; simp [padVals, ih (w / 10)]

theorem padVals_foldl : ∀ (p w x : Nat),
    digitsFoldl x (padVals p w) = x * 10 ^ p + w % 10 ^ p := by
  intro p
  induction p with
  | zero => intro w x; simp [padVals, digitsFoldl, Nat.mod_one]
  | succ p ih =>
    intro w x
    simp only [padVals]
    rw [digitsFoldl_append_single, ih (w / 10) x, botsplit]
    ring

theorem fmtFracAux_true : ∀ (p v : Nat) (acc : List Char),
    fmtFracAux v p acc true =
      ('.' :: (padVals p (v % 10 ^ p)).map digitChar ++ acc, v / 10 ^ p) := by
  intro p
  induction p with
  | zero => intro v acc; simp [fmtFracAux, padVals]
  | succ p ih =>
    intro v acc
    have hstep : fmtFracAux v (p + 1) acc true =
        fmtFracAux (v / 10) p (digitChar (v % 10) :: acc) true := by
      simp [fmtFracAux]
    rw [hstep, ih (v / 10) (digitChar (v % 10) :: acc)]
    have hpad : padVals (p + 1) (v % 10 ^ (p + 1)) =
        padVals p (v / 10 % 10 ^ p) ++ [v % 10] := by
      simp only [padVals, botdiv, botmod]
    rw [hpad, divdiv]
    simp

theorem fmtFracAux_false_zero : ∀ (p v : Nat) (acc : List Char), v % 10 ^ p = 0 →
    fmtFracAux v p acc false = (acc, v / 10 ^ p) := by
  intro p
  induction p with
  | zero => intro v acc _; simp [fmtFracAux]
  | succ p ih =>
    intro v acc h
    have hsplit := botsplit v p
    rw [h] at hsplit
    have hm : v % 10 = 0 := by omega
    have hi : v / 10 % 10 ^ p = 0 := by
      have hpos : 0 < (10:Nat) ^ p := Nat.pos_pow_of_pos p (by norm_num)
      omega
    have hstep : fmtFracAux v (p + 1) acc false = fmtFracAux (v / 10) p acc false := by
      simp [fmtFracAux, hm]
    rw [hstep, ih (v / 10) acc hi, divdiv]

theorem fmtFracAux_false_pos : ∀ (p v : Nat) (acc : List Char), v % 10 ^ p ≠ 0 →
    ∃ ds : List Nat,
      fmtFracAux v p acc false = ('.' :: ds.map digitChar ++ acc, v / 10 ^ p) ∧
      (∀ d ∈ ds, d < 10) ∧ ds.length ≤ p ∧ ds ≠ [] ∧
      0 < digitsFoldl 0 ds ∧
      digitsFoldl 0 ds * 10 ^ (p - ds.length) = v % 10 ^ p := by
  intro p
  induction p with
  | zero => intro v acc h; simp [Nat.mod_one] at h
  | succ p ih =>
    intro v acc h
    by_cases hm : v % 10 = 0
    · have hsplit := botsplit v p
      have hi : v / 10 % 10 ^ p ≠ 0 := by
        intro hx
        rw [hx, hm] at hsplit
        simp at hsplit
        exact h hsplit
      have hstep : fmtFracAux v (p + 1) acc false = fmtFracAux (v / 10) p acc false := by
        simp [fmtFracAux, hm]
      obtain ⟨ds, heq, hlt, hlen, hne, hpos, hval⟩ := ih (v / 10) acc hi
      refine ⟨ds, ?_, hlt, by omega, hne, hpos, ?_⟩
      · rw [hstep, heq, divdiv]
      · have hexp : p + 1 - ds.length = (p - ds.length) + 1 := by omega
        rw [hexp, pow_succ, ← mul_assoc, hval, hsplit, hm]
        ring
    · have hstep : fmtFracAux v (p + 1) acc false =
          fmtFracAux (v / 10) p (digitChar (v % 10) :: acc) true := by
        have hbne : (v % 10 != 0) = true := by
          simp [bne_iff_ne]
          omega
        simp only [fmtFracAux, Bool.false_or]
        rw [hbne]
        simp
      rw [hstep, fmtFracAux_true p (v / 10) (digitChar (v % 10) :: acc)]
      refine ⟨padVals p (v / 10 % 10 ^ p) ++ [v % 10], ?_, ?_, ?_, by simp, ?_, ?_⟩
      · rw [divdiv]
        simp
      · intro dd hd
        rcases List.mem_append.mp hd with hx | hx
        · exact padVals_lt10 p _ dd hx
        · simp at hx
          subst hx
          exact Nat.mod_lt _ (by norm_num)
      · simp [padVals_length]
      · rw [digitsFoldl_append_single, padVals_foldl]
        have hw : v / 10 % 10 ^ p % 10 ^ p = v / 10 % 10 ^ p :=
          Nat.mod_eq_of_lt (Nat.mod_lt _ (Nat.pos_pow_of_pos p (by norm_num)))
        omega
      · rw [digitsFoldl_append_single, padVals_foldl]
        have hw : v / 10 % 10 ^ p % 10 ^ p = v / 10 % 10 ^ p :=
          Nat.mod_eq_of_lt (Nat.mod_lt _ (Nat.pos_pow_of_pos p (by norm_num)))
        have hsplit := botsplit v p
        have hlen2 : (padVals p (v / 10 % 10 ^ p) ++ [v % 10]).length = p + 1 := by
          simp [padVals_length]
        rw [hlen2]
        simp
        omega


/-! ### Duration round-trip: token lemmas -/

theorem takeWhile_append_stop (p : Char → Bool) : ∀ (us rest : List Char),
    (∀ c ∈ us, p c = true) →
    (match rest.head? with | none => True | some c => p c = false) →
    (us ++ rest).takeWhile p = us := by
  intro us
  induction us with
  | nil =>
    intro rest _ hrest
    cases rest with
    | nil => rfl
    | cons c cs =>
      have hc : p c = false := hrest
      simp [List.takeWhile, hc]
  | cons u us ih =>
    intro rest hus hrest
    have hu : p u = true := hus u (by simp)
    simp only [List.cons_append, List.takeWhile, hu, List.append_eq]
    rw [ih rest (fun c hc => hus c (by simp [hc])) hrest]

theorem unitMapLookup_pos (u : List Char) (n : Nat) (h : unitMapLookup u = some n) :
    0 < n := by
  unfold unitMapLookup at h
  repeat' split at h
  all_goals simp_all
  all_goals omega

/-- One parse-loop token consisting of an integer part and a unit, followed
by a continuation that starts with a digit or period (or ends). -/
theorem durToken_nofrac (v : Nat) (unitChars rest : List Char) (unit d : Nat)
    (hu : unitMapLookup unitChars = some unit)
    (hune : unitChars ≠ [])
    (huc : ∀ c ∈ unitChars, (c == '.' || isDigitChar c) = false)
    (hrest : headDigitOrDot rest)
    (hv : v ≤ 2 ^ 63)
    (hvu : v * unit ≤ 2 ^ 63)
    (hd : d + v * unit ≤ 2 ^ 63) :
    durToken (fmtInt v ++ unitChars ++ rest) d = some (d + v * unit, rest) := by
  obtain ⟨c0, cs, hfi, hdg⟩ := fmtInt_head_digit v
  obtain ⟨u0, us, huu⟩ : ∃ u0 us, unitChars = u0 :: us := by
    cases unitChars with
    | nil => exact absurd rfl hune
    | cons a b => exact ⟨a, b, rfl⟩
  have hu0 : (u0 == '.' || isDigitChar u0) = false := huc u0 (by simp [huu])
  have hund : headNonDigit (unitChars ++ rest) := by
    rw [huu]
    show isDigitChar u0 = false
    simp only [Bool.or_eq_false_iff] at hu0
    exact hu0.2
  have hli : leadingIntAux (fmtInt v ++ (unitChars ++ rest)) 0 =
      some (v, unitChars ++ rest) := leadingIntAux_fmtInt v (unitChars ++ rest) hv hund
  have hlens : (unitChars ++ rest).length ≠ (fmtInt v ++ (unitChars ++ rest)).length := by
    rw [hfi]
    simp
    omega
  have hhd : ((unitChars ++ rest).head? == some '.') = false := by
    rw [huu]
    simp only [List.cons_append, List.head?, Option.some.injEq, beq_iff_eq]
    simp only [Bool.or_eq_false_iff, beq_eq_false_iff_ne, ne_eq] at hu0
    simpa using hu0.1
  have htw : (unitChars ++ rest).takeWhile (fun c => !(c == '.' || isDigitChar c)) =
      unitChars := by
    apply takeWhile_append_stop
    · intro c hc
      simp [huc c hc]
    · cases rest with
      | nil => trivial
      | cons r rs =>
        have hr : (r == '.' || isDigitChar r) = true := hrest
        simp [hr]
  have hupos : 0 < unit := unitMapLookup_pos unitChars unit hu
  have hvd : ¬ (v > 9223372036854775808 / unit) := by
    have : v ≤ 9223372036854775808 / unit := by
      apply (Nat.le_div_iff_mul_le hupos).mpr
      have h63 : (2:Nat) ^ 63 = 9223372036854775808 := by norm_num
      omega
    omega
  have hdd : ¬ (d + v * unit > 9223372036854775808) := by
    have h63 : (2:Nat) ^ 63 = 9223372036854775808 := by norm_num
    omega
  have hdrop : (unitChars ++ rest).drop unitChars.length = rest := List.drop_left _ _
  have hhead : (fmtInt v ++ (unitChars ++ rest)).head? = some c0 := by
    rw [hfi]
    simp
  have hc0ok : (c0 == '.' || isDigitChar c0) = true := by simp [hdg]
  have hpre : decide ((unitChars ++ rest).length ≠
      (fmtInt v ++ (unitChars ++ rest)).length) = true := decide_eq_true hlens
  rw [List.append_assoc]
  unfold durToken
  simp only [leadingInt, hhead, hc0ok, hli, hpre, hhd, htw, hune, hu, hvd, hdd, hdrop,
    Bool.not_true, Bool.false_eq_true, if_false, Bool.false_and, Bool.and_false,
    Bool.not_false, Bool.true_and, Bool.and_true, if_true, gt_iff_lt,
    lt_self_iff_false, false_and, decide_eq_true_eq, ite_false, ite_true,
    not_false_eq_true, if_neg, reduceIte]


theorem pow_div_pow_sub (F prec k : Nat) (hkp : k ≤ prec) :
    F * 10 ^ prec / 10 ^ k = F * 10 ^ (prec - k) := by
  have hsplit : (10:Nat) ^ prec = 10 ^ k * 10 ^ (prec - k) := by
    rw [← pow_add]
    congr 1
    omega
  rw [hsplit, ← mul_assoc, mul_comm F (10 ^ k), mul_assoc]
  exact Nat.mul_div_cancel_left _ (Nat.pos_pow_of_pos k (by norm_num))

theorem durToken_frac (v : Nat) (ds : List Nat) (unitChars rest : List Char)
    (unit prec d : Nat)
    (hu : unitMapLookup unitChars = some unit)
    (hune : unitChars ≠ [])
    (huc : ∀ c ∈ unitChars, (c == '.' || isDigitChar c) = false)
    (hrest : headDigitOrDot rest)
    (hds : ∀ x ∈ ds, x < 10)
    (hdsne : ds ≠ [])
    (hf : 0 < digitsFoldl 0 ds)
    (hkp : ds.length ≤ prec)
    (hunit : unit = 10 ^ prec)
    (hv : v ≤ 2 ^ 63)
    (hfb : digitsFoldl 0 ds ≤ 2 ^ 63)
    (hvw : v * unit + digitsFoldl 0 ds * 10 ^ (prec - ds.length) ≤ 2 ^ 63)
    (hd : d + (v * unit + digitsFoldl 0 ds * 10 ^ (prec - ds.length)) ≤ 2 ^ 63) :
    durToken (fmtInt v ++ ('.' :: List.map digitChar ds) ++ unitChars ++ rest) d =
      some (d + (v * unit + digitsFoldl 0 ds * 10 ^ (prec - ds.length)), rest) := by
  obtain ⟨c0, cs, hfi, hdg⟩ := fmtInt_head_digit v
  obtain ⟨u0, us, huu⟩ : ∃ u0 us, unitChars = u0 :: us := by
    cases unitChars with
    | nil => exact absurd rfl hune
    | cons a b => exact ⟨a, b, rfl⟩
  have hu0 : (u0 == '.' || isDigitChar u0) = false := huc u0 (by simp [huu])
  have hund : headNonDigit (unitChars ++ rest) := by
    rw [huu]
    show isDigitChar u0 = false
    simp only [Bool.or_eq_false_iff] at hu0
    exact hu0.2
  have hdot : headNonDigit ('.' :: (List.map digitChar ds ++ (unitChars ++ rest))) := by
    show isDigitChar '.' = false
    rfl
  have hli : leadingIntAux
      (fmtInt v ++ ('.' :: (List.map digitChar ds ++ (unitChars ++ rest)))) 0 =
      some (v, '.' :: (List.map digitChar ds ++ (unitChars ++ rest))) :=
    leadingIntAux_fmtInt v _ hv hdot
  have hhead : (fmtInt v ++ ('.' :: (List.map digitChar ds ++ (unitChars ++ rest)))).head? =
      some c0 := by
    rw [hfi]
    simp
  have hc0ok : (c0 == '.' || isDigitChar c0) = true := by simp [hdg]
  have hlens : ('.' :: (List.map digitChar ds ++ (unitChars ++ rest))).length ≠
      (fmtInt v ++ ('.' :: (List.map digitChar ds ++ (unitChars ++ rest)))).length := by
    rw [hfi]
    simp
    omega
  have hpre : decide (('.' :: (List.map digitChar ds ++ (unitChars ++ rest))).length ≠
      (fmtInt v ++ ('.' :: (List.map digitChar ds ++ (unitChars ++ rest)))).length) = true :=
    decide_eq_true hlens
  have hlf : leadingFractionAux (List.map digitChar ds ++ (unitChars ++ rest)) 0 1 false =
      (digitsFoldl 0 ds, 1 * 10 ^ ds.length, unitChars ++ rest) :=
    leadingFractionAux_digits ds (unitChars ++ rest) 0 1 hds hfb hund
  have hpostlen : (unitChars ++ rest).length ≠
      (List.map digitChar ds ++ (unitChars ++ rest)).length := by
    cases ds with
    | nil => exact absurd rfl hdsne
    | cons a b =>
      simp
      omega
  have hpost : decide ((unitChars ++ rest).length ≠
      (List.map digitChar ds ++ (unitChars ++ rest)).length) = true :=
    decide_eq_true hpostlen
  have htw : (unitChars ++ rest).takeWhile (fun c => !(c == '.' || isDigitChar c)) =
      unitChars := by
    apply takeWhile_append_stop
    · intro c hc
      simp [huc c hc]
    · cases rest with
      | nil => trivial
      | cons r rs =>
        have hr : (r == '.' || isDigitChar r) = true := hrest
        simp [hr]
  have hupos : 0 < unit := unitMapLookup_pos unitChars unit hu
  have hvd : ¬ (v > 9223372036854775808 / unit) := by
    have hle : v ≤ 9223372036854775808 / unit := by
      apply (Nat.le_div_iff_mul_le hupos).mpr
      have h63 : (2:Nat) ^ 63 = 9223372036854775808 := by norm_num
      omega
    omega
  rw [hunit] at hvd
  have hquot : digitsFoldl 0 ds * 10 ^ prec / 10 ^ ds.length =
      digitsFoldl 0 ds * 10 ^ (prec - ds.length) := pow_div_pow_sub _ prec _ hkp
  have hnv3 : ¬ (v * 10 ^ prec + digitsFoldl 0 ds * 10 ^ (prec - ds.length) >
      9223372036854775808) := by
    rw [hunit] at hvw
    have h63 : (2:Nat) ^ 63 = 9223372036854775808 := by norm_num
    omega
  have hndd : ¬ (d + (v * 10 ^ prec + digitsFoldl 0 ds * 10 ^ (prec - ds.length)) >
      9223372036854775808) := by
    rw [hunit] at hd
    have h63 : (2:Nat) ^ 63 = 9223372036854775808 := by norm_num
    omega
  have hdrop : (unitChars ++ rest).drop unitChars.length = rest := List.drop_left _ _
  rw [List.append_assoc, List.append_assoc]
  unfold durToken
  simp only [leadingInt, hhead, hc0ok, hli, hpre, hpost, htw, hune, hu, hvd, hf, hdrop,
    leadingFraction, hlf, hunit, hquot, hnv3, hndd,
    List.cons_append, List.head?_cons, Option.some.injEq, beq_self_eq_true, List.drop_succ_cons,
    List.drop_zero, one_mul,
    Bool.not_true, Bool.false_eq_true, if_false, Bool.false_and, Bool.and_false,
    Bool.not_false, Bool.true_and, Bool.and_true, if_true, gt_iff_lt,
    lt_self_iff_false, false_and, true_and, decide_eq_true_eq, ite_false, ite_true,
    not_false_eq_true, reduceIte]


theorem durLoop_nil (fuel d : Nat) : durLoop (fuel + 1) [] d = some d := by
  simp [durLoop]

theorem durLoop_step (fuel : Nat) (s : List Char) (d d2 : Nat) (s2 : List Char)
    (hs : s ≠ []) (ht : durToken s d = some (d2, s2)) :
    durLoop (fuel + 1) s d = durLoop fuel s2 d2 := by
  simp [durLoop, hs, ht]

theorem durLoop_mono (fuel : Nat) : ∀ (s : List Char) (d r : Nat),
    durLoop fuel s d = some r → durLoop (fuel + 1) s d = some r := by
  induction fuel with
  | zero => intro s d r h; simp [durLoop] at h
  | succ fuel ih =>
    intro s d r h
    by_cases hs : s = []
    · subst hs
      simpa [durLoop] using h
    · rcases ht : durToken s d with _ | ⟨d2, s2⟩
      · rw [durLoop] at h
        simp [hs, ht] at h
      · rw [durLoop_step fuel s d d2 s2 hs ht] at h
        rw [durLoop_step (fuel + 1) s d d2 s2 hs ht]
        exact ih s2 d2 r h

theorem durLoop_mono_add (k : Nat) : ∀ (fuel : Nat) (s : List Char) (d r : Nat),
    durLoop fuel s d = some r → durLoop (fuel + k) s d = some r := by
  induction k with
  | zero => intro fuel s d r h; exact h
  | succ k ih =>
    intro fuel s d r h
    have := ih fuel s d r h
    rw [show fuel + (k + 1) = (fuel + k) + 1 from by omega]
    exact durLoop_mono (fuel + k) s d r this

theorem durLoop_of_le (fuel fuel2 : Nat) (s : List Char) (d r : Nat)
    (hle : fuel ≤ fuel2) (h : durLoop fuel s d = some r) :
    durLoop fuel2 s d = some r := by
  have := durLoop_mono_add (fuel2 - fuel) fuel s d r h
  rwa [show fuel + (fuel2 - fuel) = fuel2 from by omega] at this

theorem durLoop_run1 (t : List Char) (d u : Nat) (ht : t ≠ [])
    (h : durToken t d = some (u, [])) : durLoop (t.length + 1) t d = some u := by
  rw [durLoop_step t.length t d u [] ht h]
  have hlen : 0 < t.length := List.length_pos.mpr ht
  rw [show t.length = (t.length - 1) + 1 from by omega]
  exact durLoop_nil _ u

theorem durLoop_run2 (t t2 : List Char) (d d1 u : Nat) (ht : t ≠ []) (ht2 : t2 ≠ [])
    (h1 : durToken t d = some (d1, t2)) (h2 : durToken t2 d1 = some (u, []))
    (hl : t2.length < t.length) :
    durLoop (t.length + 1) t d = some u := by
  rw [durLoop_step t.length t d d1 t2 ht h1]
  exact durLoop_of_le (t2.length + 1) t.length t2 d1 u (by omega)
    (durLoop_run1 t2 d1 u ht2 h2)

theorem durLoop_run3 (t t2 t3 : List Char) (d d1 d2 u : Nat)
    (ht : t ≠ []) (ht2 : t2 ≠ []) (ht3 : t3 ≠ [])
    (h1 : durToken t d = some (d1, t2)) (h2 : durToken t2 d1 = some (d2, t3))
    (h3 : durToken t3 d2 = some (u, []))
    (hl2 : t2.length < t.length) (hl3 : t3.length < t2.length) :
    durLoop (t.length + 1) t d = some u := by
  rw [durLoop_step t.length t d d1 t2 ht h1]
  exact durLoop_of_le (t2.length + 1) t.length t2 d1 u (by omega)
    (durLoop_run2 t2 t3 d1 d2 u ht2 ht3 h2 h3 hl3)

theorem headDigitOrDot_fmtInt_append (x : Nat) (y : List Char) :
    headDigitOrDot (fmtInt x ++ y) := by
  obtain ⟨c0, cs, hfi, hdg⟩ := fmtInt_head_digit x
  rw [hfi]
  show (c0 == '.' || isDigitChar c0) = true
  simp [hdg]


/-- A token consisting of the integer part a, the fraction fmtFrac printed
for u at precision p, and a unit worth 10^p nanoseconds, contributes
a * 10^p + u mod 10^p. -/
theorem durToken_fmtFrac (u p a d : Nat) (unitChars rest : List Char)
    (hu : unitMapLookup unitChars = some (10 ^ p)) (hune : unitChars ≠ [])
    (huc : ∀ c ∈ unitChars, (c == '.' || isDigitChar c) = false)
    (hrest : headDigitOrDot rest)
    (ha : a ≤ 2 ^ 63)
    (hb : d + (a * 10 ^ p + u % 10 ^ p) ≤ 2 ^ 63) :
    durToken ((fmtInt a ++ (fmtFrac u p).1) ++ unitChars ++ rest) d =
      some (d + (a * 10 ^ p + u % 10 ^ p), rest) := by
  have hp10 : (0:Nat) < 10 ^ p := Nat.pos_pow_of_pos p (by norm_num)
  by_cases hw : u % 10 ^ p = 0
  · have hfr : (fmtFrac u p).1 = [] := by
      unfold fmtFrac
      rw [fmtFracAux_false_zero p u [] hw]
    have ht := durToken_nofrac a unitChars rest (10 ^ p) d hu hune huc hrest ha
      (by rw [hw] at hb; omega) (by rw [hw] at hb; omega)
    rw [hfr, List.append_nil, hw]
    simpa using ht
  · obtain ⟨ds, heq, hds, hlen, hne, hpos, hval⟩ := fmtFracAux_false_pos p u [] hw
    have hfr : (fmtFrac u p).1 = '.' :: ds.map digitChar := by
      unfold fmtFrac
      rw [heq]
      simp
    have hwlt : u % 10 ^ p ≤ 2 ^ 63 := by omega
    have hfle : digitsFoldl 0 ds ≤ 2 ^ 63 := by
      have h1 : digitsFoldl 0 ds ≤ digitsFoldl 0 ds * 10 ^ (p - ds.length) :=
        Nat.le_mul_of_pos_right _ (Nat.pos_pow_of_pos _ (by norm_num))
      rw [hval] at h1
      omega
    have ht := durToken_frac a ds unitChars rest (10 ^ p) p d hu hune huc hrest hds hne
      hpos hlen rfl ha hfle (by rw [hval]; omega) (by rw [hval]; omega)
    rw [hval] at ht
    rw [hfr]
    exact ht

/-- One whole body made of a single fmtFrac token (the sub-second formats
and the seconds-only format): the parse loop recovers a * 10^p + u mod 10^p. -/
theorem durLoop_fmtFrac_body (u p a : Nat) (unitChars : List Char)
    (hu : unitMapLookup unitChars = some (10 ^ p)) (hune : unitChars ≠ [])
    (huc : ∀ c ∈ unitChars, (c == '.' || isDigitChar c) = false)
    (ha : a ≤ 2 ^ 63)
    (hb : a * 10 ^ p + u % 10 ^ p ≤ 2 ^ 63) :
    durLoop ((((fmtInt a ++ (fmtFrac u p).1) ++ unitChars)).length + 1)
      ((fmtInt a ++ (fmtFrac u p).1) ++ unitChars) 0 =
      some (a * 10 ^ p + u % 10 ^ p) := by
  have ht := durToken_fmtFrac u p a 0 unitChars [] hu hune huc trivial ha
    (by omega)
  rw [List.append_nil, Nat.zero_add] at ht
  have hne : (fmtInt a ++ (fmtFrac u p).1) ++ unitChars ≠ [] := by
    intro hx
    rcases List.append_eq_nil.mp hx with ⟨hx1, _⟩
    rcases List.append_eq_nil.mp hx1 with ⟨hx2, _⟩
    exact fmtInt_ne_nil a hx2
  exact durLoop_run1 _ 0 _ hne ht

/-- The parse loop recovers the magnitude from the printed body, for every
magnitude an int64 can have. -/
theorem durLoop_body (u : Nat) (hub : u ≤ 2 ^ 63) :
    durLoop ((durationBodyChars u).length + 1) (durationBodyChars u) 0 = some u := by
  by_cases h0 : u < 1000000000
  · by_cases hz : u = 0
    · subst hz
      decide
    · have hdam : ∀ P : Nat, 0 < P → u / P * P + u % P = u := by
        intro P hP
        conv_lhs => rw [Nat.mul_comm]
        exact Nat.div_add_mod u P
      by_cases h1 : u < 1000
      · have hbody : durationBodyChars u =
            (fmtInt (fmtFrac u 0).2 ++ (fmtFrac u 0).1) ++ ['n', 's'] := by
          simp only [durationBodyChars, if_pos h0, if_neg hz, if_pos h1]
        have hfr2 : (fmtFrac u 0).2 = u := rfl
        have hval : u / 10 ^ 0 * 10 ^ 0 + u % 10 ^ 0 = u := hdam _ (by norm_num)
        have := durLoop_fmtFrac_body u 0 u ['n', 's'] (by decide) (by decide)
          (by decide) hub (by simpa [Nat.mod_one] using hub)
        rw [hbody, hfr2]
        simpa [Nat.mod_one] using this
      · by_cases h2 : u < 1000000
        · have hbody : durationBodyChars u =
              (fmtInt (fmtFrac u 3).2 ++ (fmtFrac u 3).1) ++ [muChar, 's'] := by
            simp only [durationBodyChars, if_pos h0, if_neg hz, if_neg h1, if_pos h2]
        
          have hfr2 : (fmtFrac u 3).2 = u / 10 ^ 3 := by
            unfold fmtFrac
            by_cases hw : u % 10 ^ 3 = 0
            · rw [fmtFracAux_false_zero 3 u [] hw]
            · obtain ⟨ds, heq, _⟩ := fmtFracAux_false_pos 3 u [] hw
              rw [heq]
          have hval : u / 10 ^ 3 * 10 ^ 3 + u % 10 ^ 3 = u := hdam _ (by norm_num)
          have hrun := durLoop_fmtFrac_body u 3 (u / 10 ^ 3) [muChar, 's'] (by decide)
            (by decide) (by decide) (le_trans (Nat.div_le_self u _) hub)
            (by rw [hval]; exact hub)
          rw [hbody, hfr2]
          rw [hval] at hrun
          exact hrun
        · have hbody : durationBodyChars u =
              (fmtInt (fmtFrac u 6).2 ++ (fmtFrac u 6).1) ++ ['m', 's'] := by
            simp only [durationBodyChars, if_pos h0, if_neg hz, if_neg h1, if_neg h2]
          have hfr2 : (fmtFrac u 6).2 = u / 10 ^ 6 := by
            unfold fmtFrac
            by_cases hw : u % 10 ^ 6 = 0
            · rw [fmtFracAux_false_zero 6 u [] hw]
            · obtain ⟨ds, heq, _⟩ := fmtFracAux_false_pos 6 u [] hw
              rw [heq]
          have hval : u / 10 ^ 6 * 10 ^ 6 + u % 10 ^ 6 = u := hdam _ (by norm_num)
          have hrun := durLoop_fmtFrac_body u 6 (u / 10 ^ 6) ['m', 's'] (by decide)
            (by decide) (by decide) (le_trans (Nat.div_le_self u _) hub)
            (by rw [hval]; exact hub)
          rw [hbody, hfr2]
          rw [hval] at hrun
          exact hrun
  · have hfr2 : (fmtFrac u 9).2 = u / 10 ^ 9 := by
      unfold fmtFrac
      by_cases hw : u % 10 ^ 9 = 0
      · rw [fmtFracAux_false_zero 9 u [] hw]
      · obtain ⟨ds, heq, _⟩ := fmtFracAux_false_pos 9 u [] hw
        rw [heq]
    have hV9 : 1000000000 * (u / 10 ^ 9) + u % 10 ^ 9 = u := by
      have := Nat.div_add_mod u (10 ^ 9)
      norm_num at this ⊢
      omega
    have hWlt : u % 10 ^ 9 < 1000000000 := by
      have : u % 10 ^ 9 < 10 ^ 9 := Nat.mod_lt _ (by norm_num)
      omega
    have hm1 : 60 * (u / 10 ^ 9 / 60) + u / 10 ^ 9 % 60 = u / 10 ^ 9 :=
      Nat.div_add_mod _ 60
    have hm2 : 60 * (u / 10 ^ 9 / 60 / 60) + u / 10 ^ 9 / 60 % 60 = u / 10 ^ 9 / 60 :=
      Nat.div_add_mod _ 60
    have hsec_unit : unitMapLookup ['s'] = some (10 ^ 9) := by decide
    have hsec_safe : ∀ c ∈ ['s'], (c == '.' || isDigitChar c) = false := by decide
    by_cases hv2 : 0 < u / 10 ^ 9 / 60
    · have hmne : fmtInt (u / 10 ^ 9 / 60 % 60) ++ ['m'] ≠ [] := by
        intro hx
        rcases List.append_eq_nil.mp hx with ⟨hx1, _⟩
        exact fmtInt_ne_nil _ hx1
      have hsecne : (fmtInt (u / 10 ^ 9 % 60) ++ (fmtFrac u 9).1) ++ ['s'] ≠ [] := by
        intro hx
        rcases List.append_eq_nil.mp hx with ⟨_, hx2⟩
        simp at hx2
      have hsechead : headDigitOrDot ((fmtInt (u / 10 ^ 9 % 60) ++ (fmtFrac u 9).1) ++ ['s']) := by
        have := headDigitOrDot_fmtInt_append (u / 10 ^ 9 % 60) ((fmtFrac u 9).1 ++ ['s'])
        rwa [← List.append_assoc] at this
      have hsectok : ∀ dd : Nat, dd + ((u / 10 ^ 9 % 60) * 10 ^ 9 + u % 10 ^ 9) ≤ 2 ^ 63 →
          durToken ((fmtInt (u / 10 ^ 9 % 60) ++ (fmtFrac u 9).1) ++ ['s'] ++ []) dd =
            some (dd + ((u / 10 ^ 9 % 60) * 10 ^ 9 + u % 10 ^ 9), []) := by
        intro dd hdd
        exact durToken_fmtFrac u 9 (u / 10 ^ 9 % 60) dd ['s'] [] hsec_unit (by decide)
          hsec_safe trivial (by omega) hdd
      by_cases hv3 : 0 < u / 10 ^ 9 / 60 / 60
      · have hbody : durationBodyChars u =
            ((fmtInt (u / 10 ^ 9 / 60 / 60) ++ ['h']) ++
              (fmtInt (u / 10 ^ 9 / 60 % 60) ++ ['m'])) ++
              ((fmtInt (u / 10 ^ 9 % 60) ++ (fmtFrac u 9).1) ++ ['s']) := by
          simp only [durationBodyChars, if_neg (by omega : ¬ u < 1000000000), hfr2,
            gt_iff_lt, if_pos hv2, if_pos hv3]
        have ht1 : durToken (durationBodyChars u) 0 =
            some (0 + (u / 10 ^ 9 / 60 / 60) * 3600000000000,
              (fmtInt (u / 10 ^ 9 / 60 % 60) ++ ['m']) ++
                ((fmtInt (u / 10 ^ 9 % 60) ++ (fmtFrac u 9).1) ++ ['s'])) := by
          rw [hbody, List.append_assoc]
          refine durToken_nofrac (u / 10 ^ 9 / 60 / 60) ['h'] _ 3600000000000 0
            (by decide) (by decide) (by decide) ?_ (by omega) (by omega) (by omega)
          have := headDigitOrDot_fmtInt_append (u / 10 ^ 9 / 60 % 60)
            (['m'] ++ ((fmtInt (u / 10 ^ 9 % 60) ++ (fmtFrac u 9).1) ++ ['s']))
          rwa [← List.append_assoc] at this
        have ht2 : durToken
            ((fmtInt (u / 10 ^ 9 / 60 % 60) ++ ['m']) ++
              ((fmtInt (u / 10 ^ 9 % 60) ++ (fmtFrac u 9).1) ++ ['s']))
            (0 + (u / 10 ^ 9 / 60 / 60) * 3600000000000) =
            some (0 + (u / 10 ^ 9 / 60 / 60) * 3600000000000 +
              (u / 10 ^ 9 / 60 % 60) * 60000000000,
              (fmtInt (u / 10 ^ 9 % 60) ++ (fmtFrac u 9).1) ++ ['s']) :=
          durToken_nofrac (u / 10 ^ 9 / 60 % 60) ['m'] _ 60000000000 _
            (by decide) (by decide) (by decide) hsechead (by omega) (by omega) (by omega)
        have ht3 := hsectok
          (0 + (u / 10 ^ 9 / 60 / 60) * 3600000000000 + (u / 10 ^ 9 / 60 % 60) * 60000000000)
          (by omega)
        rw [List.append_nil] at ht3
        have hfin : 0 + (u / 10 ^ 9 / 60 / 60) * 3600000000000 +
            (u / 10 ^ 9 / 60 % 60) * 60000000000 +
            ((u / 10 ^ 9 % 60) * 10 ^ 9 + u % 10 ^ 9) = u := by
          have h9 : (10:Nat) ^ 9 = 1000000000 := by norm_num
          rw [h9]
          omega
        rw [hfin] at ht3
        have hlen2 : ((fmtInt (u / 10 ^ 9 / 60 % 60) ++ ['m']) ++
            ((fmtInt (u / 10 ^ 9 % 60) ++ (fmtFrac u 9).1) ++ ['s'])).length <
            (durationBodyChars u).length := by
          rw [hbody]
          simp only [List.length_append]
          have := List.length_pos.mpr (fmtInt_ne_nil (u / 10 ^ 9 / 60 / 60))
          omega
        have hlen3 : ((fmtInt (u / 10 ^ 9 % 60) ++ (fmtFrac u 9).1) ++ ['s']).length <
            ((fmtInt (u / 10 ^ 9 / 60 % 60) ++ ['m']) ++
              ((fmtInt (u / 10 ^ 9 % 60) ++ (fmtFrac u 9).1) ++ ['s'])).length := by
          simp only [List.length_append]
          have := List.length_pos.mpr (fmtInt_ne_nil (u / 10 ^ 9 / 60 % 60))
          omega
        have hbne : durationBodyChars u ≠ [] := by
          rw [hbody]
          intro hx
          rcases List.append_eq_nil.mp hx with ⟨_, hx2⟩
          exact hsecne hx2
        have hmsne : (fmtInt (u / 10 ^ 9 / 60 % 60) ++ ['m']) ++
            ((fmtInt (u / 10 ^ 9 % 60) ++ (fmtFrac u 9).1) ++ ['s']) ≠ [] := by
          intro hx
          rcases List.append_eq_nil.mp hx with ⟨_, hx2⟩
          exact hsecne hx2
        exact durLoop_run3 (durationBodyChars u) _ _ 0 _ _ u hbne hmsne hsecne
          ht1 ht2 ht3 hlen2 hlen3
      · have hbody : durationBodyChars u =
            (fmtInt (u / 10 ^ 9 / 60 % 60) ++ ['m']) ++
              ((fmtInt (u / 10 ^ 9 % 60) ++ (fmtFrac u 9).1) ++ ['s']) := by
          simp only [durationBodyChars, if_neg (by omega : ¬ u < 1000000000), hfr2,
            gt_iff_lt, if_pos hv2, if_neg hv3]
          simp
        have ht1 : durToken (durationBodyChars u) 0 =
            some (0 + (u / 10 ^ 9 / 60 % 60) * 60000000000,
              (fmtInt (u / 10 ^ 9 % 60) ++ (fmtFrac u 9).1) ++ ['s']) := by
          rw [hbody]
          exact durToken_nofrac (u / 10 ^ 9 / 60 % 60) ['m'] _ 60000000000 0
            (by decide) (by decide) (by decide) hsechead (by omega) (by omega) (by omega)
        have ht2 := hsectok (0 + (u / 10 ^ 9 / 60 % 60) * 60000000000) (by omega)
        rw [List.append_nil] at ht2
        have hfin : 0 + (u / 10 ^ 9 / 60 % 60) * 60000000000 +
            ((u / 10 ^ 9 % 60) * 10 ^ 9 + u % 10 ^ 9) = u := by
          have h9 : (10:Nat) ^ 9 = 1000000000 := by norm_num
          rw [h9]
          omega
        rw [hfin] at ht2
        have hlen2 : ((fmtInt (u / 10 ^ 9 % 60) ++ (fmtFrac u 9).1) ++ ['s']).length <
            (durationBodyChars u).length := by
          rw [hbody]
          simp only [List.length_append]
          have := List.length_pos.mpr (fmtInt_ne_nil (u / 10 ^ 9 / 60 % 60))
          omega
        have hbne : durationBodyChars u ≠ [] := by
          rw [hbody]
          intro hx
          rcases List.append_eq_nil.mp hx with ⟨_, hx2⟩
          exact hsecne hx2
        exact durLoop_run2 (durationBodyChars u) _ 0 _ u hbne hsecne ht1 ht2 hlen2
    · have hbody : durationBodyChars u =
          (fmtInt (u / 10 ^ 9 % 60) ++ (fmtFrac u 9).1) ++ ['s'] := by
        simp only [durationBodyChars, if_neg (by omega : ¬ u < 1000000000), hfr2,
          gt_iff_lt, if_neg hv2]
      have hV60 : u / 10 ^ 9 % 60 = u / 10 ^ 9 := by omega
      have hrun := durLoop_fmtFrac_body u 9 (u / 10 ^ 9 % 60) ['s'] hsec_unit (by decide)
        hsec_safe (by omega) (by omega)
      have hfin : (u / 10 ^ 9 % 60) * 10 ^ 9 + u % 10 ^ 9 = u := by
        have h9 : (10:Nat) ^ 9 = 1000000000 := by norm_num
        rw [h9]
        omega
      rw [hfin] at hrun
      rw [hbody]
      exact hrun


theorem fmtInt_head_ex (a : Nat) : ∃ c cs, fmtInt a = c :: cs ∧ isDigitChar c = true := by
  obtain ⟨c, cs, h1, h2⟩ := fmtInt_head_digit a
  exact ⟨c, cs, h1, h2⟩

theorem append_head_digit (A y : List Char)
    (h : ∃ c cs, A = c :: cs ∧ isDigitChar c = true) :
    ∃ c cs, A ++ y = c :: cs ∧ isDigitChar c = true := by
  obtain ⟨c, cs, h1, h2⟩ := h
  exact ⟨c, cs ++ y, by rw [h1]; simp, h2⟩

theorem durationBodyChars_head (u : Nat) :
    ∃ c cs, durationBodyChars u = c :: cs ∧ isDigitChar c = true := by
  unfold durationBodyChars
  by_cases h0 : u < 1000000000
  · by_cases hz : u = 0
    · rw [if_pos h0, if_pos hz]
      exact ⟨'0', ['s'], rfl, rfl⟩
    · rw [if_pos h0, if_neg hz]
      simp only
      exact append_head_digit _ _ (append_head_digit _ _ (fmtInt_head_ex _))
  · rw [if_neg h0]
    simp only
    by_cases hv2 : (fmtFrac u 9).2 / 60 > 0
    · rw [if_pos hv2]
      by_cases hv3 : (fmtFrac u 9).2 / 60 / 60 > 0
      · rw [if_pos hv3]
        exact append_head_digit _ _ (append_head_digit _ _
          (append_head_digit _ _ (fmtInt_head_ex _)))
      · rw [if_neg hv3]
        simp only [List.nil_append]
        exact append_head_digit _ _ (append_head_digit _ _ (fmtInt_head_ex _))
    · rw [if_neg hv2]
      exact append_head_digit _ _ (append_head_digit _ _ (fmtInt_head_ex _))

theorem durLen_sub (u : Nat) (p : Nat × List Char) (hz : p.2.length = 2) :
    2 ≤ ((fmtInt (fmtFrac u p.1).2 ++ (fmtFrac u p.1).1) ++ p.2).length := by
  simp only [List.length_append]
  omega

theorem durationBodyChars_two_le (u : Nat) : 2 ≤ (durationBodyChars u).length := by
  unfold durationBodyChars
  by_cases h0 : u < 1000000000
  · by_cases hz : u = 0
    · rw [if_pos h0, if_pos hz]
      simp
    · rw [if_pos h0, if_neg hz]
      simp only
      refine durLen_sub u _ ?_
      split
      · rfl
      · split <;> rfl
  · rw [if_neg h0]
    simp only
    by_cases hv2 : (fmtFrac u 9).2 / 60 > 0
    · rw [if_pos hv2]
      simp only [List.length_append, List.length_cons, List.length_nil]
      omega
    · rw [if_neg hv2]
      have h1 := List.length_pos.mpr (fmtInt_ne_nil ((fmtFrac u 9).2 % 60))
      simp only [List.length_append, List.length_cons, List.length_nil]
      omega

theorem parseDuration_minus_cons (B : List Char) (hne1 : B ≠ ['0']) (hne0 : B ≠ []) :
    parseDuration (String.mk ('-' :: B)) =
      match durLoop (B.length + 1) B 0 with
      | none => none
      | some d => some (-(d : Int)) := by
  unfold parseDuration
  rw [show (String.mk ('-' :: B)).toList = '-' :: B from rfl]
  simp only [show (('-':Char) == '-') = true from rfl, if_true, hne1, hne0,
    if_neg, ite_false, not_false_eq_true]

theorem parseDuration_plain_cons (c : Char) (cs : List Char)
    (hcm : (c == '-') = false) (hcp : (c == '+') = false)
    (hne1 : c :: cs ≠ ['0']) :
    parseDuration (String.mk (c :: cs)) =
      match durLoop ((c :: cs).length + 1) (c :: cs) 0 with
      | none => none
      | some d => if d > 9223372036854775807 then none else some (d : Int) := by
  unfold parseDuration
  rw [show (String.mk (c :: cs)).toList = c :: cs from rfl]
  simp only [hcm, hcp, Bool.false_eq_true, if_false, hne1,
    if_neg, ite_false, not_false_eq_true]
  rw [if_neg (List.cons_ne_nil c cs)]


theorem isDigitChar_ne_sign (c : Char) (h : isDigitChar c = true) :
    (c == '-') = false ∧ (c == '+') = false := by
  constructor
  · rw [beq_eq_false_iff_ne]
    intro hx
    subst hx
    exact absurd h (by decide)
  · rw [beq_eq_false_iff_ne]
    intro hx
    subst hx
    exact absurd h (by decide)

/-- time.ParseDuration inverts time.Duration.String on every int64
nanosecond count. -/
theorem parseDuration_durationString (d : Int)
    (hlo : -9223372036854775808 ≤ d) (hhi : d ≤ 9223372036854775807) :
    parseDuration (durationString d) = some d := by
  have hub : d.natAbs ≤ 2 ^ 63 := by
    have h63 : (2:Nat) ^ 63 = 9223372036854775808 := by norm_num
    omega
  obtain ⟨c, cs, hbody, hdig⟩ := durationBodyChars_head d.natAbs
  obtain ⟨hcm, hcp⟩ := isDigitChar_ne_sign c hdig
  have hloop := durLoop_body d.natAbs hub
  have hne1 : durationBodyChars d.natAbs ≠ ['0'] := by
    intro h
    have h2 := durationBodyChars_two_le d.natAbs
    rw [h] at h2
    simp at h2
  have hne0 : durationBodyChars d.natAbs ≠ [] := by rw [hbody]; simp
  by_cases hneg : d < 0
  · have hstr : durationString d = String.mk ('-' :: durationBodyChars d.natAbs) := by
      unfold durationString
      rw [if_pos hneg]
    rw [hstr, parseDuration_minus_cons _ hne1 hne0, hloop]
    simp only
    congr 1
    omega
  · have hstr : durationString d = String.mk (durationBodyChars d.natAbs) := by
      unfold durationString
      rw [if_neg hneg]
    rw [hstr, hbody, parseDuration_plain_cons c cs hcm hcp (hbody ▸ hne1), ← hbody, hloop]
    simp only
    have hmax : ¬ (d.natAbs > 9223372036854775807) := by omega
    rw [if_neg hmax]
    congr 1
    omega


theorem setStrList_marshal (xs : List String) (old : List String) :
    setStrList (.arr (xs.map JValue.str)) old = some xs := by
  simp only [setStrList]
  induction xs with
  | nil => rfl
  | cons a as ih =>
    rw [List.map_cons, List.mapM_cons]
    simp only [Option.bind_eq_bind, Option.some_bind]
    rw [ih]
    simp only [Option.some_bind]
    rfl

theorem unmarshal_marshal_SSHTUN (t : SSHTUN)
    (hlo : -9223372036854775808 ≤ t.KeepaliveInterval)
    (hhi : t.KeepaliveInterval ≤ 9223372036854775807) :
    unmarshalSSHTUN (marshalSSHTUN t) = some t := by
  have hdur : unmarshalDuration (marshalDuration t.KeepaliveInterval) =
      some t.KeepaliveInterval := parseDuration_durationString _ hlo hhi
  obtain ⟨Name, Comment, Protocol, LocalNetwork, LocalTunDevice, LocalMTU, Remote,
    RemoteNetwork, RemoteTunDevice, RemoteMTU, RemoteUser, UseSSHAgent,
    PrivateKeyFiles, RemoteUploadDirectory, RemoteSCP, Enable, KeepaliveInterval,
    KeepaliveMaxErrorCount⟩ := t
  simp only at hdur
  by_cases hc : Comment = ""
  · subst hc
    simp [marshalSSHTUN, unmarshalSSHTUN, applyField, setStr, setInt, setBool,
      setStrList_marshal, hdur, zeroSSHTUN, List.foldlM_cons]
  · simp [marshalSSHTUN, unmarshalSSHTUN, hc, applyField, setStr, setInt, setBool,
      setStrList_marshal, hdur, zeroSSHTUN, List.foldlM_cons]


theorem mapM_unmarshal_marshal (ts : List SSHTUN)
    (h : ∀ t ∈ ts, -9223372036854775808 ≤ t.KeepaliveInterval ∧
      t.KeepaliveInterval ≤ 9223372036854775807) :
    (ts.map marshalSSHTUN).mapM unmarshalSSHTUN = some ts := by
  induction ts with
  | nil => rfl
  | cons a as ih =>
    have ha := h a (by simp)
    rw [List.map_cons, List.mapM_cons]
    simp only [Option.bind_eq_bind, unmarshal_marshal_SSHTUN a ha.1 ha.2, Option.some_bind]
    rw [ih (fun t ht => h t (by simp [ht]))]
    simp only [Option.some_bind]
    rfl

theorem unmarshal_marshal_Tunnels (ts : List SSHTUN)
    (h : ∀ t ∈ ts, -9223372036854775808 ≤ t.KeepaliveInterval ∧
      t.KeepaliveInterval ≤ 9223372036854775807) :
    unmarshalTunnels (marshalTunnels ts) = some ts := by
  simp only [marshalTunnels, unmarshalTunnels, List.foldlM_cons, List.foldlM_nil,
    if_pos rfl, Option.bind_eq_bind, mapM_unmarshal_marshal ts h, Option.some_bind]
  rfl

theorem loadConfig_saveConfig (ts : List SSHTUN)
    (h : ∀ t ∈ ts, -9223372036854775808 ≤ t.KeepaliveInterval ∧
      t.KeepaliveInterval ≤ 9223372036854775807) :
    loadConfigModel (saveConfigModel ts) = some (ts.map scpDefault) := by
  simp only [loadConfigModel, saveConfigModel, unmarshal_marshal_Tunnels ts h,
    Option.map_some]
  rfl


/-- Concrete tunnel configuration used by the C7 witness: a 2m keepalive
interval, one private key file, defaults left empty. -/
def c7tun : SSHTUN :=
  ⟨"mytunnel", "", "tun", "172.18.0.1/24", "tun0", 1500, "server.example.com:22",
   "172.18.0.2/24", "tun0", 1500, "root", true, ["/root/.ssh/id_ed25519"], "",
   "", true, 120000000000, 3⟩

/-- C7: Round-trip of configuration: for any tunnel set whose keepalive
intervals fit int64, LoadConfig of SaveConfig returns the same list up to
the RemoteSCP default, a transformation that preserves every scalar field
the claim lists (name, comment, protocol, networks, devices, MTUs, user,
flags, keepalive fields); Duration encodes as the time.Duration.String text
and decodes from that string, decodes from a raw nanosecond integer, and
fails to decode from a string ParseDuration rejects. -/
theorem C7_config_round_trip (ts : List SSHTUN)
    (hrange : ∀ t ∈ ts, -9223372036854775808 ≤ t.KeepaliveInterval ∧
      t.KeepaliveInterval ≤ 9223372036854775807) :
    loadConfigModel (saveConfigModel ts) = some (ts.map scpDefault) ∧
    (∀ t : SSHTUN, (scpDefault t).Name = t.Name ∧ (scpDefault t).Comment = t.Comment ∧
      (scpDefault t).Protocol = t.Protocol ∧
      (scpDefault t).LocalNetwork = t.LocalNetwork ∧
      (scpDefault t).RemoteNetwork = t.RemoteNetwork ∧
      (scpDefault t).LocalTunDevice = t.LocalTunDevice ∧
      (scpDefault t).RemoteTunDevice = t.RemoteTunDevice ∧
      (scpDefault t).LocalMTU = t.LocalMTU ∧
      (scpDefault t).RemoteMTU = t.RemoteMTU ∧
      (scpDefault t).RemoteUser = t.RemoteUser ∧
      (scpDefault t).UseSSHAgent = t.UseSSHAgent ∧
      (scpDefault t).Enable = t.Enable ∧
      (scpDefault t).KeepaliveInterval = t.KeepaliveInterval ∧
      (scpDefault t).KeepaliveMaxErrorCount = t.KeepaliveMaxErrorCount) ∧
    (∀ d : Int, -9223372036854775808 ≤ d → d ≤ 9223372036854775807 →
      marshalDuration d = .str (durationString d) ∧
      unmarshalDuration (marshalDuration d) = some d) ∧
    (∀ n : Int, unmarshalDuration (.num n) = some n) ∧
    (∀ s : String, parseDuration s = none → unmarshalDuration (.str s) = none) := by
  refine ⟨loadConfig_saveConfig ts hrange, ?_, ?_, ?_, ?_⟩
  · intro t
    simp only [scpDefault]
    split <;> simp
  · intro d h1 h2
    exact ⟨rfl, parseDuration_durationString d h1 h2⟩
  · intro n
    rfl
  · intro s hs
    simp [unmarshalDuration, hs]

theorem C7_config_round_trip_witness :
    (∀ t ∈ [c7tun], -9223372036854775808 ≤ t.KeepaliveInterval ∧
      t.KeepaliveInterval ≤ 9223372036854775807) ∧
    loadConfigModel (saveConfigModel [c7tun]) = some [scpDefault c7tun] :=
  ⟨by decide, (C7_config_round_trip [c7tun] (by decide)).1⟩


end Sshtun
